import Mathlib

/-!
Verification of the MacTerm terminal-screen module (Terminal.h) against its
natural-language specification.  The repository provides the public header
`src/Build/Application/Code/Terminal.h` (constants, result codes, emulator
encodings, event tags, and documented structures); the implementation file
is not part of the provided sources, so the behavioural parts are modelled
from the specification, faithfully to its words, and the header-derived
constants are embedded directly from the source.
-/

namespace MacTerm

/-- Possible return values from certain APIs in this module
(`enum Terminal_Result`, Terminal.h lines 71-80). -/
inductive Terminal_Result
  | kTerminal_ResultOK                      -- no error
  | kTerminal_ResultInvalidID               -- a given TerminalScreenRef does not correspond to any known screen
  | kTerminal_ResultInvalidIterator         -- a given Terminal_LineRef does not correspond to any known row
  | kTerminal_ResultParameterError          -- invalid input (e.g. a null pointer)
  | kTerminal_ResultNotEnoughMemory         -- not enough memory to allocate required data structures
  | kTerminal_ResultIteratorCannotAdvance   -- attempt to advance iterator past the end of its list
  | kTerminal_ResultNoListeningSession      -- no session is currently listening
deriving DecidableEq, Repr

/-- Numeric codes of `Terminal_Result` exactly as assigned in Terminal.h. -/
def Terminal_Result.code : Terminal_Result → Int
  | .kTerminal_ResultOK => 0
  | .kTerminal_ResultInvalidID => -1
  | .kTerminal_ResultInvalidIterator => -2
  | .kTerminal_ResultParameterError => -3
  | .kTerminal_ResultNotEnoughMemory => -4
  | .kTerminal_ResultIteratorCannotAdvance => -5
  | .kTerminal_ResultNoListeningSession => -6

/-- How scrollback lines are allocated (`enum Terminal_ScrollbackType`,
Terminal.h lines 229-235).  The `Fixed` policy reads a specific row count
from the preferences; it is carried here as an argument where needed. -/
inductive Terminal_ScrollbackType
  | kTerminal_ScrollbackTypeDisabled       -- no lines are saved
  | kTerminal_ScrollbackTypeFixed          -- a specific number of rows is read from the preferences
  | kTerminal_ScrollbackTypeUnlimited      -- rows are allocated continuously, memory permitting
  | kTerminal_ScrollbackTypeDistributed    -- allocations favor the active window
deriving DecidableEq, Repr

/-! ### Emulator encoding (Terminal.h lines 141-195)

The 16-bit emulator value is the terminal type in the upper byte and the
variant in the lower byte, exactly as laid out by the masks in the header. -/

def kTerminal_EmulatorTypeByteShift : Nat := 8
def kTerminal_EmulatorTypeMask : Nat := 0x000000FF <<< kTerminal_EmulatorTypeByteShift
def kTerminal_EmulatorVariantByteShift : Nat := 0
def kTerminal_EmulatorVariantMask : Nat := 0x000000FF <<< kTerminal_EmulatorVariantByteShift

def kTerminal_EmulatorTypeVT : Nat := (0 <<< kTerminal_EmulatorTypeByteShift) &&& kTerminal_EmulatorTypeMask
def kTerminal_EmulatorVariantVT100 : Nat := (0x00 <<< kTerminal_EmulatorVariantByteShift) &&& kTerminal_EmulatorVariantMask
def kTerminal_EmulatorVariantVT102 : Nat := (0x01 <<< kTerminal_EmulatorVariantByteShift) &&& kTerminal_EmulatorVariantMask
def kTerminal_EmulatorVariantVT220 : Nat := (0x02 <<< kTerminal_EmulatorVariantByteShift) &&& kTerminal_EmulatorVariantMask
def kTerminal_EmulatorVariantVT320 : Nat := (0x03 <<< kTerminal_EmulatorVariantByteShift) &&& kTerminal_EmulatorVariantMask
def kTerminal_EmulatorVariantVT420 : Nat := (0x04 <<< kTerminal_EmulatorVariantByteShift) &&& kTerminal_EmulatorVariantMask
def kTerminal_EmulatorTypeXTerm : Nat := (1 <<< kTerminal_EmulatorTypeByteShift) &&& kTerminal_EmulatorTypeMask
def kTerminal_EmulatorVariantXTermOriginal : Nat := (0x00 <<< kTerminal_EmulatorVariantByteShift) &&& kTerminal_EmulatorVariantMask
def kTerminal_EmulatorVariantXTermColor : Nat := (0x01 <<< kTerminal_EmulatorVariantByteShift) &&& kTerminal_EmulatorVariantMask
def kTerminal_EmulatorVariantXTerm256Color : Nat := (0x02 <<< kTerminal_EmulatorVariantByteShift) &&& kTerminal_EmulatorVariantMask
def kTerminal_EmulatorTypeDumb : Nat := (2 <<< kTerminal_EmulatorTypeByteShift) &&& kTerminal_EmulatorTypeMask
def kTerminal_EmulatorVariantDumb1 : Nat := (0x00 <<< kTerminal_EmulatorVariantByteShift) &&& kTerminal_EmulatorVariantMask
def kTerminal_EmulatorTypeANSI : Nat := (3 <<< kTerminal_EmulatorTypeByteShift) &&& kTerminal_EmulatorTypeMask
def kTerminal_EmulatorVariantANSIBBS : Nat := (0x00 <<< kTerminal_EmulatorVariantByteShift) &&& kTerminal_EmulatorVariantMask
def kTerminal_EmulatorVariantANSISCO : Nat := (0x01 <<< kTerminal_EmulatorVariantByteShift) &&& kTerminal_EmulatorVariantMask

def kTerminal_EmulatorANSIBBS : Nat := kTerminal_EmulatorTypeANSI ||| kTerminal_EmulatorVariantANSIBBS
def kTerminal_EmulatorANSISCO : Nat := kTerminal_EmulatorTypeANSI ||| kTerminal_EmulatorVariantANSISCO
def kTerminal_EmulatorVT100 : Nat := kTerminal_EmulatorTypeVT ||| kTerminal_EmulatorVariantVT100
def kTerminal_EmulatorVT102 : Nat := kTerminal_EmulatorTypeVT ||| kTerminal_EmulatorVariantVT102
def kTerminal_EmulatorVT220 : Nat := kTerminal_EmulatorTypeVT ||| kTerminal_EmulatorVariantVT220
def kTerminal_EmulatorVT320 : Nat := kTerminal_EmulatorTypeVT ||| kTerminal_EmulatorVariantVT320
def kTerminal_EmulatorVT420 : Nat := kTerminal_EmulatorTypeVT ||| kTerminal_EmulatorVariantVT420
def kTerminal_EmulatorXTermOriginal : Nat := kTerminal_EmulatorTypeXTerm ||| kTerminal_EmulatorVariantXTermOriginal
def kTerminal_EmulatorXTermColor : Nat := kTerminal_EmulatorTypeXTerm ||| kTerminal_EmulatorVariantXTermColor
def kTerminal_EmulatorXTerm256Color : Nat := kTerminal_EmulatorTypeXTerm ||| kTerminal_EmulatorVariantXTerm256Color
def kTerminal_EmulatorDumb : Nat := kTerminal_EmulatorTypeDumb ||| kTerminal_EmulatorVariantDumb1

/-- The eleven canonical emulators, in the order the specification lists
their canonical names. -/
def canonicalEmulators : List Nat :=
  [ kTerminal_EmulatorVT100, kTerminal_EmulatorVT102, kTerminal_EmulatorVT220
  , kTerminal_EmulatorVT320, kTerminal_EmulatorVT420
  , kTerminal_EmulatorXTermOriginal, kTerminal_EmulatorXTermColor, kTerminal_EmulatorXTerm256Color
  , kTerminal_EmulatorANSIBBS, kTerminal_EmulatorANSISCO, kTerminal_EmulatorDumb ]

/-- Modelled from the spec: `Terminal_EmulatorReturnDefaultName` (implementation
absent from the provided sources; declared at Terminal.h lines 559-560).
Maps an emulator value to its canonical name from the specification list
(`vt100`, `vt102`, `vt220`, `vt320`, `vt420`, `xterm`, `xterm-color`,
`xterm-256color`, `ansi-bbs`, `ansi-sco`, `dumb`); unknown values fall back
to the dumb terminal's name. -/
def Terminal_EmulatorReturnDefaultName (inEmulator : Nat) : String :=
  if inEmulator = kTerminal_EmulatorVT100 then "vt100"
  else if inEmulator = kTerminal_EmulatorVT102 then "vt102"
  else if inEmulator = kTerminal_EmulatorVT220 then "vt220"
  else if inEmulator = kTerminal_EmulatorVT320 then "vt320"
  else if inEmulator = kTerminal_EmulatorVT420 then "vt420"
  else if inEmulator = kTerminal_EmulatorXTermOriginal then "xterm"
  else if inEmulator = kTerminal_EmulatorXTermColor then "xterm-color"
  else if inEmulator = kTerminal_EmulatorXTerm256Color then "xterm-256color"
  else if inEmulator = kTerminal_EmulatorANSIBBS then "ansi-bbs"
  else if inEmulator = kTerminal_EmulatorANSISCO then "ansi-sco"
  else "dumb"

/-- Modelled from the spec: `Terminal_EmulatorReturnForName` (implementation
absent from the provided sources; declared at Terminal.h lines 562-563).
Maps a canonical name back to its emulator value; unrecognised names fall
back to the dumb terminal. -/
def Terminal_EmulatorReturnForName (inName : String) : Nat :=
  if inName = "vt100" then kTerminal_EmulatorVT100
  else if inName = "vt102" then kTerminal_EmulatorVT102
  else if inName = "vt220" then kTerminal_EmulatorVT220
  else if inName = "vt320" then kTerminal_EmulatorVT320
  else if inName = "vt420" then kTerminal_EmulatorVT420
  else if inName = "xterm" then kTerminal_EmulatorXTermOriginal
  else if inName = "xterm-color" then kTerminal_EmulatorXTermColor
  else if inName = "xterm-256color" then kTerminal_EmulatorXTerm256Color
  else if inName = "ansi-bbs" then kTerminal_EmulatorANSIBBS
  else if inName = "ansi-sco" then kTerminal_EmulatorANSISCO
  else kTerminal_EmulatorDumb

/-! ### XTerm 256-color palette (claim C8)

`struct Terminal_XTermColorDescription` is embedded from Terminal.h lines
291-299: the screen, an index documented to lie between 16 and 255, and
three 16-bit color components. -/

/-- Event payload for `kTerminal_ChangeXTermColor` (Terminal.h lines 291-299).
The screen reference is modelled as a numeric screen id. -/
structure Terminal_XTermColorDescription where
  screen : Nat
  index : Nat            -- a number between 16 and 255 that indicates what changed
  redComponent : Nat
  greenComponent : Nat
  blueComponent : Nat
deriving DecidableEq, Repr

/-- An RGB triple of 16-bit components. -/
structure RGBColor where
  red : Nat
  green : Nat
  blue : Nat
deriving DecidableEq, Repr

/-- Modelled from the spec: the mutable 256-entry indexed color table kept
per screen ("256-entry RGB palette per screen", spec section 4.7); the
implementation is absent from the provided sources. -/
structure XTermPalette where
  entries : List RGBColor
deriving DecidableEq, Repr

/-- Modelled from the spec: palette entry mutation ("`SetEntry(i, rgb)` with
16 ≤ i < 256 fires `XTermColor`; entries 0-15 are fixed by the color
emulator variant", spec section 4.7); the implementation is absent from the
provided sources.  Returns the updated palette together with the list of
`XTermColor` events fired. -/
def xtermPaletteSetEntry (screenId : Nat) (pal : XTermPalette) (i : Nat)
    (rgb : RGBColor) : XTermPalette × List Terminal_XTermColorDescription :=
  if 16 ≤ i ∧ i < 256 then
    ( ⟨pal.entries.set i rgb⟩
    , [⟨screenId, i, rgb.red, rgb.green, rgb.blue⟩] )
  else
    (pal, [])

/-! ### Change notifications (Terminal.h lines 86-133)

Setting changes that other modules may listen for via
`Terminal_StartMonitoring`; the header assigns each a four-character code,
preserved here for reference. -/

/-- The `Terminal_Change` tags embedded from the header enum
(Terminal.h lines 86-133). -/
inductive Terminal_Change
  | kTerminal_ChangeAudioEvent
  | kTerminal_ChangeAudioState
  | kTerminal_ChangeCursorLocation
  | kTerminal_ChangeCursorState
  | kTerminal_ChangeExcessiveErrors
  | kTerminal_ChangeFileCaptureBegun
  | kTerminal_ChangeFileCaptureEnding
  | kTerminal_ChangeLineFeedNewLineMode
  | kTerminal_ChangeNewLEDState
  | kTerminal_ChangeReset
  | kTerminal_ChangeScreenSize
  | kTerminal_ChangeScrollActivity
  | kTerminal_ChangeTextEdited
  | kTerminal_ChangeTextRemoved
  | kTerminal_ChangeVideoMode
  | kTerminal_ChangeWindowFrameTitle
  | kTerminal_ChangeWindowIconTitle
  | kTerminal_ChangeWindowMinimization
  | kTerminal_ChangeXTermColor
deriving DecidableEq, Repr

/-- The four-character codes the header assigns to each change tag
(Terminal.h lines 89-131). -/
def Terminal_Change.fourCharCode : Terminal_Change → String
  | .kTerminal_ChangeAudioEvent => "Bell"
  | .kTerminal_ChangeAudioState => "BEnD"
  | .kTerminal_ChangeCursorLocation => "Curs"
  | .kTerminal_ChangeCursorState => "CurV"
  | .kTerminal_ChangeExcessiveErrors => "Errr"
  | .kTerminal_ChangeFileCaptureBegun => "CapB"
  | .kTerminal_ChangeFileCaptureEnding => "CapE"
  | .kTerminal_ChangeLineFeedNewLineMode => "LFNL"
  | .kTerminal_ChangeNewLEDState => "LEDS"
  | .kTerminal_ChangeReset => "Rset"
  | .kTerminal_ChangeScreenSize => "SSiz"
  | .kTerminal_ChangeScrollActivity => "^v<>"
  | .kTerminal_ChangeTextEdited => "UpdT"
  | .kTerminal_ChangeTextRemoved => "DelT"
  | .kTerminal_ChangeVideoMode => "RevV"
  | .kTerminal_ChangeWindowFrameTitle => "WinT"
  | .kTerminal_ChangeWindowIconTitle => "IcnT"
  | .kTerminal_ChangeWindowMinimization => "MnmR"
  | .kTerminal_ChangeXTermColor => "XTCl"

/-! ### Parser / emulator engine state machine (claims C1, C5)

The implementation of the byte-driven state machine is absent from the
provided sources; it is modelled from spec section 4.1 ("mirrors the Paul
Williams VT500 parser, extended with OSC/DCS string collection") and the
error semantics of section 4.1/7. -/

/-- Modelled from the spec: the parser-state tagged variant of the data
model ("Ground, Escape, EscapeIntermediate, CsiEntry, CsiParam,
CsiIntermediate, CsiIgnore, OscString, DcsEntry, DcsParam, DcsIntermediate,
DcsPassthrough, DcsIgnore, SosPmApcString", spec section 3); the
implementation is absent from the provided sources. -/
inductive ParserState
  | ground
  | escape
  | escapeIntermediate
  | csiEntry
  | csiParam
  | csiIntermediate
  | csiIgnore
  | oscString
  | dcsEntry
  | dcsParam
  | dcsIntermediate
  | dcsPassthrough
  | dcsIgnore
  | sosPmApcString
deriving DecidableEq, Repr

/-- Design-default error threshold: 256 errors (spec section 4.1). -/
def kExcessiveErrorsThreshold : Nat := 256

/-- Design-default error-rate window: 8 KiB of input (spec section 4.1). -/
def kErrorRateWindowBytes : Nat := 8192

/-- Escape-dispatch finals the emulator recognises (DECSC, DECRC, DECKPAM,
DECKPNM, IND, NEL, HTS, RI, RIS); any other final is an unsupported
sequence.  Modelled from the spec's dispatch-table design. -/
def escSupportedFinal (b : Nat) : Bool :=
  b ∈ [0x37, 0x38, 0x3D, 0x3E, 0x44, 0x45, 0x48, 0x4D, 0x63]

/-- Character-set designation finals the emulator recognises (DEC special
graphics, alternate ROMs, UK, US-ASCII, user-preferred supplemental).
Modelled from the spec's character-set handling. -/
def charsetSupportedFinal (b : Nat) : Bool :=
  b ∈ [0x30, 0x31, 0x32, 0x3C, 0x41, 0x42]

/-- CSI finals the emulator recognises (cursor movement, erase, insert and
delete, scroll, modes, SGR, reports, scroll region, save and restore).
Modelled from the spec's CSI dispatch list. -/
def csiSupportedFinal (b : Nat) : Bool :=
  b ∈ [0x40, 0x41, 0x42, 0x43, 0x44, 0x45, 0x46, 0x47, 0x48, 0x4A, 0x4B,
       0x4C, 0x4D, 0x50, 0x53, 0x54, 0x58, 0x63, 0x64, 0x66, 0x67, 0x68,
       0x6C, 0x6D, 0x6E, 0x72, 0x73, 0x75]

/-- DCS selector finals the emulator recognises (DECRQSS and user-defined
keys); unknown selectors transition to `DcsIgnore` (spec section 4.1). -/
def dcsSupportedFinal (b : Nat) : Bool :=
  b ∈ [0x71, 0x7C]

/-- Modelled from the spec: one transition of the parser state machine on a
single input byte, returning the next state together with whether this byte
constituted a data error (a malformed or unsupported sequence, folded into
the error counter and never aborting processing).  Mirrors the VT500-style
action tables of spec section 4.1: transitions out of any state on CAN,
SUB, or ESC are global; the implementation is absent from the provided
sources. -/
def byteStep (p : ParserState) (b : Nat) : ParserState × Bool :=
  if b = 0x18 ∨ b = 0x1A then
    -- CAN or SUB: global abort of any sequence in progress; discarding a
    -- partial sequence counts as a malformed-sequence error
    (.ground, decide (p ≠ .ground))
  else if b = 0x1B then
    (.escape, false)
  else match p with
  | .ground => (.ground, false)
  | .escape =>
      if 0x20 ≤ b ∧ b ≤ 0x2F then (.escapeIntermediate, false)
      else if b = 0x50 then (.dcsEntry, false)
      else if b = 0x58 ∨ b = 0x5E ∨ b = 0x5F then (.sosPmApcString, false)
      else if b = 0x5B then (.csiEntry, false)
      else if b = 0x5D then (.oscString, false)
      else if 0x30 ≤ b ∧ b ≤ 0x7E then (.ground, !escSupportedFinal b)
      else (.escape, false)
  | .escapeIntermediate =>
      if 0x20 ≤ b ∧ b ≤ 0x2F then (.escapeIntermediate, false)
      else if 0x30 ≤ b ∧ b ≤ 0x7E then (.ground, !charsetSupportedFinal b)
      else (.escapeIntermediate, false)
  | .csiEntry =>
      if (0x30 ≤ b ∧ b ≤ 0x39) ∨ b = 0x3B then (.csiParam, false)
      else if b = 0x3A then (.csiIgnore, true)
      else if 0x3C ≤ b ∧ b ≤ 0x3F then (.csiParam, false)
      else if 0x20 ≤ b ∧ b ≤ 0x2F then (.csiIntermediate, false)
      else if 0x40 ≤ b ∧ b ≤ 0x7E then (.ground, !csiSupportedFinal b)
      else (.csiEntry, false)
  | .csiParam =>
      if (0x30 ≤ b ∧ b ≤ 0x39) ∨ b = 0x3B then (.csiParam, false)
      else if b = 0x3A ∨ (0x3C ≤ b ∧ b ≤ 0x3F) then (.csiIgnore, true)
      else if 0x20 ≤ b ∧ b ≤ 0x2F then (.csiIntermediate, false)
      else if 0x40 ≤ b ∧ b ≤ 0x7E then (.ground, !csiSupportedFinal b)
      else (.csiParam, false)
  | .csiIntermediate =>
      if 0x20 ≤ b ∧ b ≤ 0x2F then (.csiIntermediate, false)
      else if 0x30 ≤ b ∧ b ≤ 0x3F then (.csiIgnore, true)
      else if 0x40 ≤ b ∧ b ≤ 0x7E then (.ground, !csiSupportedFinal b)
      else (.csiIntermediate, false)
  | .csiIgnore =>
      if 0x40 ≤ b ∧ b ≤ 0x7E then (.ground, false) else (.csiIgnore, false)
  | .oscString =>
      if b = 0x07 then (.ground, false) else (.oscString, false)
  | .dcsEntry =>
      if (0x30 ≤ b ∧ b ≤ 0x39) ∨ b = 0x3B then (.dcsParam, false)
      else if b = 0x3A then (.dcsIgnore, true)
      else if 0x3C ≤ b ∧ b ≤ 0x3F then (.dcsParam, false)
      else if 0x20 ≤ b ∧ b ≤ 0x2F then (.dcsIntermediate, false)
      else if 0x40 ≤ b ∧ b ≤ 0x7E then
        if dcsSupportedFinal b then (.dcsPassthrough, false) else (.dcsIgnore, true)
      else (.dcsEntry, false)
  | .dcsParam =>
      if (0x30 ≤ b ∧ b ≤ 0x39) ∨ b = 0x3B then (.dcsParam, false)
      else if b = 0x3A ∨ (0x3C ≤ b ∧ b ≤ 0x3F) then (.dcsIgnore, true)
      else if 0x20 ≤ b ∧ b ≤ 0x2F then (.dcsIntermediate, false)
      else if 0x40 ≤ b ∧ b ≤ 0x7E then
        if dcsSupportedFinal b then (.dcsPassthrough, false) else (.dcsIgnore, true)
      else (.dcsParam, false)
  | .dcsIntermediate =>
      if 0x20 ≤ b ∧ b ≤ 0x2F then (.dcsIntermediate, false)
      else if 0x30 ≤ b ∧ b ≤ 0x3F then (.dcsIgnore, true)
      else if 0x40 ≤ b ∧ b ≤ 0x7E then
        if dcsSupportedFinal b then (.dcsPassthrough, false) else (.dcsIgnore, true)
      else (.dcsIntermediate, false)
  | .dcsPassthrough => (.dcsPassthrough, false)
  | .dcsIgnore => (.dcsIgnore, false)
  | .sosPmApcString => (.sosPmApcString, false)

/-- Modelled from the spec: the emulator engine state that claims about
`process` concern — the parser state (persisting across calls), the
lifetime error total, the error-rate window bookkeeping, and the
once-per-lifetime `ExcessiveErrors` latch; the implementation is absent
from the provided sources. -/
structure EmulatorState where
  parserState : ParserState
  errorTotal : Nat            -- lifetime count of absorbed data errors
  windowBytes : Nat           -- bytes consumed within the current 8 KiB window
  windowErrors : Nat          -- errors within the current 8 KiB window
  excessiveErrorsFired : Bool -- the ExcessiveErrors message is sent just once, if ever
deriving DecidableEq, Repr

/-- The engine state of a freshly created screen. -/
def initialEmulatorState : EmulatorState :=
  ⟨.ground, 0, 0, 0, false⟩

/-- Modelled from the spec: consuming one byte of input.  The byte is fed
to the state machine; a data error bumps the counters, and when the
in-window error count crosses the threshold the engine fires
`ExcessiveErrors` exactly once per screen lifetime (spec sections 4.1
and 7); the implementation is absent from the provided sources. -/
def emuStep (s : EmulatorState) (b : Nat) : EmulatorState × List Terminal_Change :=
  let next := byteStep s.parserState b
  let errInc : Nat := if next.2 then 1 else 0
  let wErr := s.windowErrors + errInc
  let fireNow : Bool :=
    next.2 && !s.excessiveErrorsFired && decide (kExcessiveErrorsThreshold ≤ wErr)
  let wBytes := s.windowBytes + 1
  let windowFull : Bool := decide (kErrorRateWindowBytes ≤ wBytes)
  ( { parserState := next.1
    , errorTotal := s.errorTotal + errInc
    , windowBytes := if windowFull then 0 else wBytes
    , windowErrors := if windowFull then 0 else wErr
    , excessiveErrorsFired := s.excessiveErrorsFired || fireNow }
  , if fireNow then [.kTerminal_ChangeExcessiveErrors] else [] )

/-- Modelled from the spec: `Terminal_EmulatorProcessData` (declared at
Terminal.h lines 648-651; the implementation is absent from the provided
sources).  Consumes an arbitrary byte slice one byte at a time, threading
the persistent engine state, and returns the new state, the number of
bytes consumed, and the change events fired (spec section 4.1 contract). -/
def Terminal_EmulatorProcessData (s : EmulatorState) :
    List Nat → EmulatorState × Nat × List Terminal_Change
  | [] => (s, 0, [])
  | b :: rest =>
      let stepped := emuStep s b
      let tail := Terminal_EmulatorProcessData stepped.1 rest
      (tail.1, tail.2.1 + 1, stepped.2 ++ tail.2.2)

/-- Modelled from the spec: a whole-lifetime run of the engine — the
session feeds any sequence of buffers, in order, into `process`; state
persists across the calls.  Returns the final state and every change event
fired over the lifetime. -/
def processAll (s : EmulatorState) :
    List (List Nat) → EmulatorState × List Terminal_Change
  | [] => (s, [])
  | buf :: rest =>
      let this := Terminal_EmulatorProcessData s buf
      let tail := processAll this.1 rest
      (tail.1, this.2.2 ++ tail.2)

/-- The number of `ExcessiveErrors` events in an event list. -/
def countExcessiveErrors (evs : List Terminal_Change) : Nat :=
  evs.count .kTerminal_ChangeExcessiveErrors

/-! ### Screen grid, cursor and printable dispatch (claims C2, C4)

The cell buffer and the printable-dispatch rules are modelled from spec
sections 3 and 4.1; the implementation is absent from the provided
sources. -/

/-- A cell: a pair of a code point and an attribute word (spec section 3). -/
structure Cell where
  codePoint : Nat
  attrs : Nat
deriving DecidableEq, Repr

/-- An erased or never-written cell: a space with empty attributes. -/
def blankCell : Cell := ⟨0x20, 0⟩

/-- Modelled from the spec: the screen-grid state the printable-dispatch
claims concern — the grid of `rows` lines of `visible_columns` cells, the
cursor with its wrap-pending sentinel column (`col ∈ [0, visible_columns]`,
spec section 3), the autowrap mode, and the current graphic rendition; the
implementation is absent from the provided sources. -/
structure PrintScreen where
  rows : Nat
  visibleColumns : Nat
  grid : List (List Cell)   -- index 0 = top row
  cursorRow : Nat
  cursorCol : Nat           -- equal to visibleColumns encodes the last-column sentinel
  autowrap : Bool
  currentAttrs : Nat
deriving DecidableEq, Repr

/-- A freshly created screen: all cells blank, cursor at the home position,
autowrap on, default rendition. -/
def freshPrintScreen (rows cols : Nat) : PrintScreen :=
  ⟨rows, cols, List.replicate rows (List.replicate cols blankCell), 0, 0, true, 0⟩

/-- Write one cell of the grid, leaving every other cell in place. -/
def setCell (grid : List (List Cell)) (r c : Nat) (v : Cell) : List (List Cell) :=
  match grid, r with
  | [], _ => []
  | row :: rest, 0 => row.set c v :: rest
  | row :: rest, Nat.succ r => row :: setCell rest r c v

/-- Read one cell of the grid (blank outside the grid). -/
def cellAt (grid : List (List Cell)) (r c : Nat) : Cell :=
  ((grid.getD r []).getD c blankCell)

/-- Modelled from the spec: printable dispatch (spec section 4.1): if
autowrap is on and the last-column sentinel is set, first emit a newline
within the scroll region and reset the sentinel; write the code point with
the current rendition at the cursor; then advance the column — at the last
column with autowrap off the cursor stays put, with autowrap on it moves to
the sentinel column rather than wrapping eagerly.  The implementation is
absent from the provided sources. -/
def printChar (s : PrintScreen) (c : Nat) : PrintScreen :=
  let s1 :=
    if s.autowrap ∧ s.cursorCol = s.visibleColumns then
      if s.cursorRow + 1 < s.rows then
        { s with cursorRow := s.cursorRow + 1, cursorCol := 0 }
      else
        { s with grid := s.grid.tail ++ [List.replicate s.visibleColumns blankCell]
               , cursorCol := 0 }
    else s
  let s2 := { s1 with grid := setCell s1.grid s1.cursorRow s1.cursorCol ⟨c, s1.currentAttrs⟩ }
  if s2.cursorCol + 1 < s2.visibleColumns then { s2 with cursorCol := s2.cursorCol + 1 }
  else if s2.autowrap then { s2 with cursorCol := s2.visibleColumns }
  else s2

/-- Modelled from the spec: feeding a run of printable characters through
the emulator in order (the printable-dispatch path of `process`). -/
def writeText (s : PrintScreen) (T : List Nat) : PrintScreen :=
  T.foldl printChar s

/-- Modelled from the spec: `Terminal_CursorGetLocation` (declared at
Terminal.h lines 535-538; the implementation is absent from the provided
sources).  Reports the zero-based column and row of the cursor, the column
possibly equal to `visible_columns` in the wrap-pending state. -/
def Terminal_CursorGetLocation (s : PrintScreen) : Nat × Nat :=
  (s.cursorCol, s.cursorRow)

/-! ### Like-attribute runs (claim C4) -/

/-- One chunk delivered to a `Terminal_ScreenRunProcPtr` callback
(Terminal.h lines 327-333): the text slice — `none` models the null text
buffer standing for a blank run — its length, its starting column, and the
single attribute word applying to every character of the chunk. -/
structure ScreenRun where
  startColumn : Nat
  textOrNull : Option (List Nat)
  runLength : Nat
  attrs : Nat
deriving DecidableEq, Repr

/-- Split a row into contiguous runs of cells sharing exactly the same
attribute word (adjacent cells land in the same run exactly when their
attribute words agree). -/
def likeRuns (row : List Cell) : List (List Cell) :=
  row.splitBy (fun a b => a.attrs == b.attrs)

/-- Assign starting columns to the runs of a row and package each as the
chunk its callback receives; a run consisting solely of blank cells is
delivered with a null text buffer and its length. -/
def runsFrom (start : Nat) : List (List Cell) → List ScreenRun
  | [] => []
  | r :: rs =>
      { startColumn := start
      , textOrNull :=
          if r.all (fun c => c = blankCell) then none else some (r.map Cell.codePoint)
      , runLength := r.length
      , attrs := (r.headD blankCell).attrs } :: runsFrom (start + r.length) rs

/-- Modelled from the spec: `Terminal_ForEachLikeAttributeRunDo` (declared
at Terminal.h lines 415-419; the implementation is absent from the provided
sources).  Iterates the contiguous blocks of text on a row that share
exactly the same attributes, delivering each chunk in order with its
starting column (spec section 6). -/
def Terminal_ForEachLikeAttributeRunDo (row : List Cell) : List ScreenRun :=
  runsFrom 0 (likeRuns row)

/-- The text a delivered chunk stands for: its slice, or — for a null
buffer — a blank area of the stated length. -/
def chunkText (r : ScreenRun) : List Nat :=
  match r.textOrNull with
  | some t => t
  | none => List.replicate r.runLength 0x20

/-- Drop trailing blanks from recovered text. -/
def dropTrailingBlanks (l : List Nat) : List Nat :=
  (l.reverse.dropWhile (fun c => c = 0x20)).reverse

/-- Text as cells carrying one fixed attribute word. -/
def cellsOfText (attrs : Nat) (T : List Nat) : List Cell :=
  T.map (fun c => ⟨c, attrs⟩)

/-- Pad a partial row with blanks up to the column count. -/
def padTo (n : Nat) (l : List Cell) : List Cell :=
  l ++ List.replicate (n - l.length) blankCell

/-- The grid holding a flat list of cells in reading order, wrapped at
`cols` columns and padded with blanks to `rows` rows. -/
def toGrid (cols : Nat) : Nat → List Cell → List (List Cell)
  | 0, _ => []
  | r + 1, flat => padTo cols (flat.take cols) :: toGrid cols r (flat.drop cols)

/-- Cursor position after k printable characters on an autowrapping screen:
home for k = 0, otherwise one past the last written cell, stalling in the
sentinel column at each multiple of the width. -/
def cursorAfter (cols k : Nat) : Nat × Nat :=
  if k = 0 then (0, 0) else ((k - 1) / cols, (k - 1) % cols + 1)

/-- The screen state reached after writing a given text into a fresh
autowrapping screen, described in closed form. -/
def writtenState (rows cols : Nat) (T : List Nat) : PrintScreen :=
  { rows := rows
  , visibleColumns := cols
  , grid := toGrid cols rows (cellsOfText 0 T)
  , cursorRow := (cursorAfter cols T.length).1
  , cursorCol := (cursorAfter cols T.length).2
  , autowrap := true
  , currentAttrs := 0 }

/-! ### Scrollback, scroll events and line identity (claims C3, C6, C10)

The scrollback deque, the line-id discipline and the scroll operations are
modelled from spec sections 3, 4.2 and 4.3; the implementation is absent
from the provided sources.  Lines are represented by their `LineId` (each
allocated line gets a monotonically increasing id, never reused). -/

/-- Modelled from the spec: the scrollback-related screen state — the main
screen as a deque of line ids (index 0 = top), the scrollback as a deque of
line ids (index 0 = newest), the next line id to allocate, the
save-lines-on-clear mode bit, and the scrollback policy with its `Fixed`
row-count preference; the implementation is absent from the provided
sources. -/
structure SbScreen where
  mainScreen : List Nat
  scrollback : List Nat
  nextLineId : Nat
  saveLinesOnClear : Bool
  scrollbackType : Terminal_ScrollbackType
  scrollbackRows : Nat
deriving DecidableEq, Repr

/-- The capacity a scrollback policy imposes (`none` = unbounded). -/
def scrollbackLimit : Terminal_ScrollbackType → Nat → Option Nat
  | .kTerminal_ScrollbackTypeDisabled, _ => some 0
  | .kTerminal_ScrollbackTypeFixed, n => some n
  | .kTerminal_ScrollbackTypeUnlimited, _ => none
  | .kTerminal_ScrollbackTypeDistributed, _ => none

/-- Modelled from the spec: pushing one line onto the scrollback at
position 0 (newest); under `Fixed(N)` the oldest lines beyond the capacity
are dropped in FIFO order (spec section 4.2). -/
def pushScrollback (s : SbScreen) (line : Nat) : List Nat :=
  match scrollbackLimit s.scrollbackType s.scrollbackRows with
  | none => line :: s.scrollback
  | some cap => (line :: s.scrollback).take cap

/-- Modelled from the spec: one full-screen scroll-up — the top row leaves
the screen, entering the scrollback when `save_lines_on_clear` is set and
being discarded otherwise, and a freshly allocated blank line appears at
the bottom (spec section 4.2). -/
def scrollUpFull (s : SbScreen) : SbScreen :=
  match s.mainScreen with
  | [] => s
  | top :: rest =>
      { s with
        mainScreen := rest ++ [s.nextLineId]
      , scrollback := if s.saveLinesOnClear then pushScrollback s top else s.scrollback
      , nextLineId := s.nextLineId + 1 }

/-- n successive full-screen scroll-ups. -/
def iterateScrollUp (s : SbScreen) : Nat → SbScreen
  | 0 => s
  | n + 1 => iterateScrollUp (scrollUpFull s) n

/-- Modelled from the spec: one full-screen scroll-down — a freshly
allocated blank line appears at the top and the bottom row of the main
screen is clipped. -/
def scrollDownFull (s : SbScreen) : SbScreen :=
  match s.mainScreen with
  | [] => s
  | _ =>
      { s with
        mainScreen := s.nextLineId :: s.mainScreen.dropLast
      , nextLineId := s.nextLineId + 1 }

/-- n successive full-screen scroll-downs. -/
def iterateScrollDown (s : SbScreen) : Nat → SbScreen
  | 0 => s
  | n + 1 => iterateScrollDown (scrollDownFull s) n

/-- Modelled from the spec: `Terminal_ReturnInvisibleRowCount` (declared at
Terminal.h lines 399-400; the implementation is absent from the provided
sources): the number of rows in the scrollback buffer. -/
def Terminal_ReturnInvisibleRowCount (s : SbScreen) : Nat :=
  s.scrollback.length

/-- Modelled from the spec: `Terminal_DeleteAllSavedLines` (declared at
Terminal.h lines 495-496; the implementation is absent from the provided
sources): destroys the scrollback. -/
def Terminal_DeleteAllSavedLines (s : SbScreen) : SbScreen :=
  { s with scrollback := [] }

/-- The concrete 24-row screen used for the Fixed(100) scrollback scenario:
line ids 0-23 on the main screen, empty scrollback, save-lines-on-clear
set. -/
def fixedScrollbackDemoScreen : SbScreen :=
  ⟨List.range 24, [], 24, true, .kTerminal_ScrollbackTypeFixed, 100⟩

/-- Event payload for `kTerminal_ChangeScrollActivity`
(`struct Terminal_ScrollDescription`, Terminal.h lines 280-289): the screen
(modelled as a numeric id) and the row delta whose sign convention the
header documents. -/
structure Terminal_ScrollDescription where
  screen : Nat
  rowDelta : Int
deriving DecidableEq, Repr

/-- The scroll-affecting operations that fire `ScrollActivity` events. -/
inductive ScrollOp
  | scrollUp (n : Nat)
  | scrollDown (n : Nat)
  | clearScrollback
deriving DecidableEq, Repr

/-- Modelled from the spec and the Terminal_ScrollDescription header
comment: running a scroll-affecting operation and the `ScrollActivity`
event it fires — rowDelta less than zero when content scrolled upward by
that many rows, greater than zero when content scrolled downward clipping
the bottom, zero when the scrollback was modified some other way (for
example, being cleared); the implementation is absent from the provided
sources. -/
def runScrollOp (screenId : Nat) (s : SbScreen) :
    ScrollOp → SbScreen × List Terminal_ScrollDescription
  | .scrollUp n =>
      (iterateScrollUp s n, if n = 0 then [] else [⟨screenId, -(n : Int)⟩])
  | .scrollDown n =>
      (iterateScrollDown s n, if n = 0 then [] else [⟨screenId, (n : Int)⟩])
  | .clearScrollback =>
      (Terminal_DeleteAllSavedLines s, [⟨screenId, 0⟩])

/-! ### Line iterators (claim C6) -/

/-- The region a line iterator currently refers to. -/
inductive LineRegion
  | mainScreen
  | scrollback
deriving DecidableEq, Repr

/-- The whole line list in visual order: scrollback from oldest to newest,
then the main screen from top to bottom. -/
def combinedLines (s : SbScreen) : List Nat :=
  s.scrollback.reverse ++ s.mainScreen

/-- Resolve a line id to the region holding it. -/
def regionOf (s : SbScreen) (id : Nat) : Option LineRegion :=
  if id ∈ s.mainScreen then some .mainScreen
  else if id ∈ s.scrollback then some .scrollback
  else none

/-- The position of an iterator's line in the combined list. -/
def combinedIndexOf (s : SbScreen) (id : Nat) : Option Nat :=
  (combinedLines s).findIdx? (fun x => x = id)

/-- Modelled from the spec: `Terminal_LineIteratorAdvance` (declared at
Terminal.h lines 421-424; the implementation is absent from the provided
sources).  An iterator holds a line id; advancing by a positive delta moves
toward the bottom of the main screen and by a negative delta toward the
oldest scrollback line, crossing the scrollback boundary transparently; an
attempt to move past either end of the combined list returns
`kTerminal_ResultIteratorCannotAdvance` and leaves the iterator where it
was (spec section 4.3). -/
def Terminal_LineIteratorAdvance (s : SbScreen) (id : Nat) (delta : Int) :
    Terminal_Result × Nat :=
  match combinedIndexOf s id with
  | none => (.kTerminal_ResultInvalidIterator, id)
  | some i =>
      let target : Int := (i : Int) + delta
      if 0 ≤ target ∧ target < ((combinedLines s).length : Int) then
        (.kTerminal_ResultOK, (combinedLines s).getD target.toNat 0)
      else
        (.kTerminal_ResultIteratorCannotAdvance, id)

/-! ### Public operations on screen handles (claim C7)

The spec represents opaque screen references as small ids into a registry
owned by the module; all public operations resolve the id at entry and
return `InvalidId` on a miss (spec section 9); bad arguments such as null
pointers return `ParameterError` with no state change (spec section 7). -/

/-- Modelled from the spec: all per-screen state reachable through a screen
handle — the parser engine, the cell grid with its cursor and modes, the
scrollback, the XTerm palette and the listener registrations; the
implementation is absent from the provided sources. -/
structure ScreenRecord where
  emulator : EmulatorState
  printScreen : PrintScreen
  sbScreen : SbScreen
  palette : XTermPalette
  listeners : List (Terminal_Change × Nat)
deriving DecidableEq, Repr

/-- The registry of live screens, keyed by numeric screen id. -/
abbrev ScreenRegistry := List (Nat × ScreenRecord)

/-- Resolve a screen handle. -/
def lookupScreen (reg : ScreenRegistry) (id : Nat) : Option ScreenRecord :=
  (reg.find? (fun p => p.1 = id)).map (fun p => p.2)

/-- Replace the record of one screen, keeping every other entry. -/
def updateScreen (reg : ScreenRegistry) (id : Nat) (sc : ScreenRecord) : ScreenRegistry :=
  reg.map (fun p => if p.1 = id then (p.1, sc) else p)

/-- The public mutating operations modelled for the error-path claim; an
`Option` argument of `none` models a null pointer passed by the caller. -/
inductive TerminalOp
  | emulatorProcessData (screenId : Nat) (buffer : Option (List Nat))
  | lineIteratorAdvance (screenId : Nat) (iterator : Option Nat) (delta : Int)
  | setVisibleScreenDimensions (screenId : Nat) (w h : Nat)
  | deleteAllSavedLines (screenId : Nat)
deriving DecidableEq, Repr

/-- Modelled from the spec: dispatch of public operations through a screen
handle — an unknown handle reports `kTerminal_ResultInvalidID`, a null
pointer argument reports `kTerminal_ResultParameterError`, an unknown line
iterator reports `kTerminal_ResultInvalidIterator`, and on every such error
the registry (cells, cursor, modes, scrollback, palette, listeners) is left
untouched (spec sections 7 and 9); the implementation is absent from the
provided sources. -/
def runOp (reg : ScreenRegistry) : TerminalOp → Terminal_Result × ScreenRegistry
  | .emulatorProcessData id buf =>
      match lookupScreen reg id with
      | none => (.kTerminal_ResultInvalidID, reg)
      | some sc =>
          match buf with
          | none => (.kTerminal_ResultParameterError, reg)
          | some bytes =>
              (.kTerminal_ResultOK,
                updateScreen reg id
                  { sc with emulator := (Terminal_EmulatorProcessData sc.emulator bytes).1 })
  | .lineIteratorAdvance id it delta =>
      match lookupScreen reg id with
      | none => (.kTerminal_ResultInvalidID, reg)
      | some sc =>
          match it with
          | none => (.kTerminal_ResultParameterError, reg)
          | some itId => ((Terminal_LineIteratorAdvance sc.sbScreen itId delta).1, reg)
  | .setVisibleScreenDimensions id w h =>
      match lookupScreen reg id with
      | none => (.kTerminal_ResultInvalidID, reg)
      | some sc =>
          if w = 0 ∨ h = 0 then (.kTerminal_ResultParameterError, reg)
          else
            (.kTerminal_ResultOK,
              updateScreen reg id
                { sc with printScreen :=
                    { sc.printScreen with
                      rows := h
                    , visibleColumns := w
                    , grid := toGrid w h sc.printScreen.grid.flatten
                    , cursorRow := min sc.printScreen.cursorRow (h - 1)
                    , cursorCol := min sc.printScreen.cursorCol w } })
  | .deleteAllSavedLines id =>
      match lookupScreen reg id with
      | none => (.kTerminal_ResultInvalidID, reg)
      | some sc =>
          (.kTerminal_ResultOK,
            updateScreen reg id
              { sc with sbScreen := Terminal_DeleteAllSavedLines sc.sbScreen })

end MacTerm

namespace MacTerm

/-- C9: for each of the eleven canonical emulators, mapping the emulator to
its default name with `Terminal_EmulatorReturnDefaultName` and mapping that
name back with `Terminal_EmulatorReturnForName` returns the original
emulator value. -/
theorem emulator_name_round_trip :
    ∀ e ∈ canonicalEmulators,
      Terminal_EmulatorReturnForName (Terminal_EmulatorReturnDefaultName e) = e := by
  decide

/-- Witness for C9: the round trip at the concrete emulator vt220. -/
theorem emulator_name_round_trip_witness :
    kTerminal_EmulatorVT220 ∈ canonicalEmulators ∧
      Terminal_EmulatorReturnForName
        (Terminal_EmulatorReturnDefaultName kTerminal_EmulatorVT220) = kTerminal_EmulatorVT220 :=
  ⟨by decide, emulator_name_round_trip kTerminal_EmulatorVT220 (by decide)⟩

/-- C8: setting XTerm palette entry i with 16 ≤ i < 256 updates the
256-entry palette (the entry now holds the given color, the palette size is
unchanged, other entries are untouched) and fires an `XTermColor` event
carrying index i; and every `XTermColor` event payload ever produced by the
palette-set operation carries an index between 16 and 255 inclusive, while
out-of-range indices (including entries 0-15) produce no event. -/
theorem xterm_palette_set_entry_spec (screenId i : Nat) (pal : XTermPalette)
    (rgb : RGBColor) (hlen : pal.entries.length = 256) :
    (16 ≤ i ∧ i < 256 →
      (xtermPaletteSetEntry screenId pal i rgb).1.entries[i]? = some rgb ∧
      (xtermPaletteSetEntry screenId pal i rgb).1.entries.length = 256 ∧
      (∀ j, j ≠ i →
        (xtermPaletteSetEntry screenId pal i rgb).1.entries[j]? = pal.entries[j]?) ∧
      (xtermPaletteSetEntry screenId pal i rgb).2 =
        [⟨screenId, i, rgb.red, rgb.green, rgb.blue⟩]) ∧
    (∀ ev ∈ (xtermPaletteSetEntry screenId pal i rgb).2, 16 ≤ ev.index ∧ ev.index ≤ 255) ∧
    (¬ (16 ≤ i ∧ i < 256) → (xtermPaletteSetEntry screenId pal i rgb).2 = []) := by
  unfold xtermPaletteSetEntry
  by_cases h : 16 ≤ i ∧ i < 256
  · rw [if_pos h]
    refine ⟨fun _ => ⟨?_, ?_, ?_, rfl⟩, ?_, fun hc => absurd h hc⟩
    · exact List.getElem?_set_eq_of_lt _ (by omega)
    · simp [hlen]
    · intro j hj
      exact List.getElem?_set_ne (fun hc => hj hc.symm)
    · intro ev hev
      rw [List.mem_singleton] at hev
      subst hev
      refine ⟨h.1, ?_⟩
      show i ≤ 255
      omega
  · rw [if_neg h]
    exact ⟨fun hc => absurd hc h, fun ev hev => absurd hev (List.not_mem_nil ev), fun _ => rfl⟩

/-- Witness for C8: setting entry 17 of a fresh all-black palette on screen 0. -/
theorem xterm_palette_set_entry_spec_witness :
    (XTermPalette.mk (List.replicate 256 ⟨0, 0, 0⟩)).entries.length = 256 ∧
      ((16 ≤ 17 ∧ 17 < 256 →
        (xtermPaletteSetEntry 0 ⟨List.replicate 256 ⟨0, 0, 0⟩⟩ 17 ⟨0xFFFF, 0x8080, 0⟩).1.entries[17]? =
            some ⟨0xFFFF, 0x8080, 0⟩ ∧
        (xtermPaletteSetEntry 0 ⟨List.replicate 256 ⟨0, 0, 0⟩⟩ 17 ⟨0xFFFF, 0x8080, 0⟩).1.entries.length = 256 ∧
        (∀ j, j ≠ 17 →
          (xtermPaletteSetEntry 0 ⟨List.replicate 256 ⟨0, 0, 0⟩⟩ 17 ⟨0xFFFF, 0x8080, 0⟩).1.entries[j]? =
            (XTermPalette.mk (List.replicate 256 ⟨0, 0, 0⟩)).entries[j]?) ∧
        (xtermPaletteSetEntry 0 ⟨List.replicate 256 ⟨0, 0, 0⟩⟩ 17 ⟨0xFFFF, 0x8080, 0⟩).2 =
          [⟨0, 17, 0xFFFF, 0x8080, 0⟩]) ∧
      (∀ ev ∈ (xtermPaletteSetEntry 0 ⟨List.replicate 256 ⟨0, 0, 0⟩⟩ 17 ⟨0xFFFF, 0x8080, 0⟩).2,
        16 ≤ ev.index ∧ ev.index ≤ 255) ∧
      (¬ (16 ≤ 17 ∧ 17 < 256) →
        (xtermPaletteSetEntry 0 ⟨List.replicate 256 ⟨0, 0, 0⟩⟩ 17 ⟨0xFFFF, 0x8080, 0⟩).2 = [])) :=
  ⟨List.length_replicate 256 _,
    xterm_palette_set_entry_spec 0 17 ⟨List.replicate 256 ⟨0, 0, 0⟩⟩ ⟨0xFFFF, 0x8080, 0⟩
      (List.length_replicate 256 _)⟩

/-! ### Lemmas about the emulator engine (claims C1, C5) -/

theorem emuStep_errorTotal_eq (s : EmulatorState) (b : Nat) :
    (emuStep s b).1.errorTotal =
      s.errorTotal + (if (byteStep s.parserState b).2 then 1 else 0) := rfl

theorem emuStep_fired_eq (s : EmulatorState) (b : Nat) :
    (emuStep s b).1.excessiveErrorsFired =
      (s.excessiveErrorsFired ||
        ((byteStep s.parserState b).2 && !s.excessiveErrorsFired &&
          decide (kExcessiveErrorsThreshold ≤
            s.windowErrors + (if (byteStep s.parserState b).2 then 1 else 0)))) := rfl

theorem emuStep_events_eq (s : EmulatorState) (b : Nat) :
    (emuStep s b).2 =
      (if ((byteStep s.parserState b).2 && !s.excessiveErrorsFired &&
            decide (kExcessiveErrorsThreshold ≤
              s.windowErrors + (if (byteStep s.parserState b).2 then 1 else 0)))
        then [Terminal_Change.kTerminal_ChangeExcessiveErrors] else []) := rfl

theorem emuStep_count_eq (s : EmulatorState) (b : Nat) :
    countExcessiveErrors (emuStep s b).2 +
        (if s.excessiveErrorsFired then 1 else 0) =
      (if (emuStep s b).1.excessiveErrorsFired then 1 else 0) := by
  rw [emuStep_events_eq, emuStep_fired_eq]
  cases hf : s.excessiveErrorsFired <;>
    cases hn : (byteStep s.parserState b).2 <;>
      simp [countExcessiveErrors, List.count_cons, List.count_nil] <;>
        split <;> simp [List.count_cons, List.count_nil]

theorem processData_count_eq (s : EmulatorState) (buf : List Nat) :
    countExcessiveErrors (Terminal_EmulatorProcessData s buf).2.2 +
        (if s.excessiveErrorsFired then 1 else 0) =
      (if (Terminal_EmulatorProcessData s buf).1.excessiveErrorsFired then 1 else 0) := by
  induction buf generalizing s with
  | nil => simp [Terminal_EmulatorProcessData, countExcessiveErrors]
  | cons x xs ih =>
      have hstep := emuStep_count_eq s x
      have htail := ih (emuStep s x).1
      simp only [Terminal_EmulatorProcessData, countExcessiveErrors, List.count_append] at *
      omega

theorem processAll_count_eq (s : EmulatorState) (bufs : List (List Nat)) :
    countExcessiveErrors (processAll s bufs).2 +
        (if s.excessiveErrorsFired then 1 else 0) =
      (if (processAll s bufs).1.excessiveErrorsFired then 1 else 0) := by
  induction bufs generalizing s with
  | nil => simp [processAll, countExcessiveErrors]
  | cons x xs ih =>
      have hstep := processData_count_eq s x
      have htail := ih (Terminal_EmulatorProcessData s x).1
      simp only [processAll, countExcessiveErrors, List.count_append] at *
      omega

theorem emuStep_window_invariant (s : EmulatorState) (b : Nat)
    (h : s.excessiveErrorsFired = false → s.windowErrors < kExcessiveErrorsThreshold) :
    (emuStep s b).1.excessiveErrorsFired = false →
      (emuStep s b).1.windowErrors < kExcessiveErrorsThreshold := by
  intro hfired
  rw [emuStep_fired_eq] at hfired
  rcases Bool.or_eq_false_iff.mp hfired with ⟨hf, hfire⟩
  show (if decide (kErrorRateWindowBytes ≤ s.windowBytes + 1) then 0
        else s.windowErrors + (if (byteStep s.parserState b).2 then 1 else 0)) <
      kExcessiveErrorsThreshold
  have hw := h hf
  cases hfull : decide (kErrorRateWindowBytes ≤ s.windowBytes + 1) with
  | true =>
      simp only [hfull, if_true]
      show 0 < kExcessiveErrorsThreshold
      decide
  | false =>
      rw [if_neg Bool.false_ne_true]
      cases hn : (byteStep s.parserState b).2 with
      | false => simpa using hw
      | true =>
          simp only [hn, if_true]
          rw [hn, hf] at hfire
          simp only [Bool.not_false, Bool.and_true, Bool.true_and] at hfire
          have : ¬ (kExcessiveErrorsThreshold ≤ s.windowErrors + 1) := by
            simpa using hfire
          omega

theorem processData_window_invariant (s : EmulatorState) (buf : List Nat)
    (h : s.excessiveErrorsFired = false → s.windowErrors < kExcessiveErrorsThreshold) :
    (Terminal_EmulatorProcessData s buf).1.excessiveErrorsFired = false →
      (Terminal_EmulatorProcessData s buf).1.windowErrors < kExcessiveErrorsThreshold := by
  induction buf generalizing s with
  | nil => exact h
  | cons x xs ih =>
      show (Terminal_EmulatorProcessData (emuStep s x).1 xs).1.excessiveErrorsFired = false →
        (Terminal_EmulatorProcessData (emuStep s x).1 xs).1.windowErrors < kExcessiveErrorsThreshold
      exact ih _ (emuStep_window_invariant s x h)

theorem processAll_window_invariant (s : EmulatorState) (bufs : List (List Nat))
    (h : s.excessiveErrorsFired = false → s.windowErrors < kExcessiveErrorsThreshold) :
    (processAll s bufs).1.excessiveErrorsFired = false →
      (processAll s bufs).1.windowErrors < kExcessiveErrorsThreshold := by
  induction bufs generalizing s with
  | nil => exact h
  | cons x xs ih =>
      show (processAll (Terminal_EmulatorProcessData s x).1 xs).1.excessiveErrorsFired = false →
        (processAll (Terminal_EmulatorProcessData s x).1 xs).1.windowErrors < kExcessiveErrorsThreshold
      exact ih _ (processData_window_invariant s x h)

theorem processData_append (s : EmulatorState) (a b : List Nat) :
    Terminal_EmulatorProcessData s (a ++ b) =
      ( (Terminal_EmulatorProcessData (Terminal_EmulatorProcessData s a).1 b).1
      , (Terminal_EmulatorProcessData s a).2.1 +
          (Terminal_EmulatorProcessData (Terminal_EmulatorProcessData s a).1 b).2.1
      , (Terminal_EmulatorProcessData s a).2.2 ++
          (Terminal_EmulatorProcessData (Terminal_EmulatorProcessData s a).1 b).2.2 ) := by
  induction a generalizing s with
  | nil => simp [Terminal_EmulatorProcessData]
  | cons x xs ih =>
      have h1 : Terminal_EmulatorProcessData s (x :: (xs ++ b)) =
          ( (Terminal_EmulatorProcessData (emuStep s x).1 (xs ++ b)).1
          , (Terminal_EmulatorProcessData (emuStep s x).1 (xs ++ b)).2.1 + 1
          , (emuStep s x).2 ++ (Terminal_EmulatorProcessData (emuStep s x).1 (xs ++ b)).2.2 ) := rfl
      have h2 : Terminal_EmulatorProcessData s (x :: xs) =
          ( (Terminal_EmulatorProcessData (emuStep s x).1 xs).1
          , (Terminal_EmulatorProcessData (emuStep s x).1 xs).2.1 + 1
          , (emuStep s x).2 ++ (Terminal_EmulatorProcessData (emuStep s x).1 xs).2.2 ) := rfl
      rw [List.cons_append, h1, h2, ih]
      dsimp only
      refine Prod.ext rfl (Prod.ext ?_ ?_)
      · dsimp only
        omega
      · dsimp only
        exact (List.append_assoc _ _ _).symm

theorem processData_length (s : EmulatorState) (buf : List Nat) :
    (Terminal_EmulatorProcessData s buf).2.1 = buf.length := by
  induction buf generalizing s with
  | nil => rfl
  | cons x xs ih => simp [Terminal_EmulatorProcessData, ih]

theorem processData_errorTotal_mono (s : EmulatorState) (buf : List Nat) :
    s.errorTotal ≤ (Terminal_EmulatorProcessData s buf).1.errorTotal := by
  induction buf generalizing s with
  | nil => exact Nat.le_refl _
  | cons x xs ih =>
      refine Nat.le_trans ?_ (ih (emuStep s x).1)
      rw [emuStep_errorTotal_eq]
      exact Nat.le_add_right _ _

/-- C1: `Terminal_EmulatorProcessData` consumes the entire buffer — the
byte count returned equals the input length — and chunk boundaries are
immaterial: processing a concatenation equals processing the chunks in
sequence with the parser state persisting across calls (same final state,
consumed counts adding up, events concatenating); malformed bytes never
terminate processing early, they only accumulate in the error counter,
which is monotone. -/
theorem emulator_process_data_consumes_entire_buffer :
    ∀ (s : EmulatorState) (a b : List Nat),
      (Terminal_EmulatorProcessData s a).2.1 = a.length ∧
      Terminal_EmulatorProcessData s (a ++ b) =
        ( (Terminal_EmulatorProcessData (Terminal_EmulatorProcessData s a).1 b).1
        , (Terminal_EmulatorProcessData s a).2.1 +
            (Terminal_EmulatorProcessData (Terminal_EmulatorProcessData s a).1 b).2.1
        , (Terminal_EmulatorProcessData s a).2.2 ++
            (Terminal_EmulatorProcessData (Terminal_EmulatorProcessData s a).1 b).2.2 ) ∧
      s.errorTotal ≤ (Terminal_EmulatorProcessData s a).1.errorTotal :=
  fun s a b =>
    ⟨processData_length s a, processData_append s a b, processData_errorTotal_mono s a⟩

/-- C5: over a screen's whole lifetime (any sequence of buffers processed
from the fresh engine state) the `ExcessiveErrors` change event is fired at
most once; once the latch is set, a step fires nothing further while
malformed bytes still only bump the error counter; while the latch is
clear, the in-window error count stays below the threshold; and a step
fires the event exactly when the latch is clear, the byte is a data error,
and that error makes the in-window count reach the threshold (the first
crossing). -/
theorem excessive_errors_fired_at_most_once :
    (∀ bufs : List (List Nat),
      countExcessiveErrors (processAll initialEmulatorState bufs).2 ≤ 1) ∧
    (∀ (s : EmulatorState) (b : Nat), s.excessiveErrorsFired = true →
      (emuStep s b).2 = [] ∧ (emuStep s b).1.excessiveErrorsFired = true ∧
      (emuStep s b).1.errorTotal =
        s.errorTotal + (if (byteStep s.parserState b).2 then 1 else 0)) ∧
    (∀ bufs : List (List Nat),
      (processAll initialEmulatorState bufs).1.excessiveErrorsFired = false →
        (processAll initialEmulatorState bufs).1.windowErrors < kExcessiveErrorsThreshold) ∧
    (∀ (s : EmulatorState) (b : Nat),
      s.windowErrors < kExcessiveErrorsThreshold →
      ((emuStep s b).2 ≠ [] ↔
        (s.excessiveErrorsFired = false ∧ (byteStep s.parserState b).2 = true ∧
          s.windowErrors + 1 = kExcessiveErrorsThreshold))) := by
  refine ⟨?_, ?_, ?_, ?_⟩
  · intro bufs
    have h := processAll_count_eq initialEmulatorState bufs
    have hini : (if initialEmulatorState.excessiveErrorsFired then 1 else 0) = 0 := rfl
    rw [hini] at h
    split at h <;> omega
  · intro s b hf
    rw [emuStep_events_eq, emuStep_fired_eq, emuStep_errorTotal_eq]
    simp [hf]
  · intro bufs
    exact processAll_window_invariant initialEmulatorState bufs (fun _ => by decide)
  · intro s b hw
    constructor
    · intro hne
      rw [emuStep_events_eq] at hne
      have hc : ((byteStep s.parserState b).2 && !s.excessiveErrorsFired &&
            decide (kExcessiveErrorsThreshold ≤
              s.windowErrors + (if (byteStep s.parserState b).2 then 1 else 0))) = true := by
        by_contra hcf
        rw [Bool.not_eq_true] at hcf
        rw [hcf] at hne
        simp at hne
      rw [Bool.and_eq_true, Bool.and_eq_true] at hc
      obtain ⟨⟨herr, hnotf⟩, hge⟩ := hc
      refine ⟨by simpa using hnotf, herr, ?_⟩
      rw [herr] at hge
      simp at hge
      omega
    · rintro ⟨hf, herr, hcross⟩
      rw [emuStep_events_eq, herr, hf]
      have hle : kExcessiveErrorsThreshold ≤ s.windowErrors + 1 := by omega
      simp [hle]

set_option maxRecDepth 10000 in
/-- C2: on an 80-column, 24-row screen with autowrap enabled, processing
80 printable `X` bytes leaves the cursor reported at row 0, column 80 (the
last-column wrap-pending sentinel, column equal to `visible_columns`), and
processing one further printable `Y` writes `Y` at row 1, column 0 and
leaves the cursor at row 1, column 1. -/
theorem autowrap_eighty_column_scenario :
    Terminal_CursorGetLocation (writeText (freshPrintScreen 24 80) (List.replicate 80 0x58)) =
        (80, 0) ∧
    cellAt (printChar (writeText (freshPrintScreen 24 80) (List.replicate 80 0x58)) 0x59).grid
        1 0 = ⟨0x59, 0⟩ ∧
    Terminal_CursorGetLocation
        (printChar (writeText (freshPrintScreen 24 80) (List.replicate 80 0x58)) 0x59) =
      (1, 1) := by
  decide

/-- Witness for C5: the at-most-once bound at a concrete two-buffer
lifetime, and the no-further-events conclusion at a concrete latched
state. -/
theorem excessive_errors_fired_at_most_once_witness :
    countExcessiveErrors (processAll initialEmulatorState [[0x41], [0x1B, 0x5A]]).2 ≤ 1 ∧
    ((⟨ParserState.ground, 9, 9, 9, true⟩ : EmulatorState).excessiveErrorsFired = true ∧
      (emuStep ⟨ParserState.ground, 9, 9, 9, true⟩ 0x41).2 = []) :=
  ⟨excessive_errors_fired_at_most_once.1 [[0x41], [0x1B, 0x5A]],
    rfl, (excessive_errors_fired_at_most_once.2.1 ⟨ParserState.ground, 9, 9, 9, true⟩ 0x41 rfl).1⟩

/-! ### Lemmas about like-attribute runs (claim C4) -/

theorem likeRuns_flatten (row : List Cell) : (likeRuns row).flatten = row :=
  List.flatten_splitBy _ _

theorem attrs_eq_headD_of_chain' (m : List Cell)
    (h : m.Chain' (fun x y => x.attrs == y.attrs)) :
    ∀ c ∈ m, c.attrs = (m.headD blankCell).attrs := by
  induction m with
  | nil => intro c hc; cases hc
  | cons a t ih =>
      intro c hc
      rcases List.mem_cons.mp hc with rfl | hct
      · rfl
      · cases t with
        | nil => cases hct
        | cons b t2 =>
            rw [List.chain'_cons] at h
            have hab : a.attrs = b.attrs := by simpa using h.1
            have hc2 := ih h.2 c hct
            simp only [List.headD_cons] at hc2 ⊢
            rw [hc2]
            exact hab.symm

theorem likeRuns_uniform_attrs (row : List Cell) :
    ∀ r ∈ likeRuns row, ∀ c ∈ r, c.attrs = (r.headD blankCell).attrs := by
  intro r hr
  exact attrs_eq_headD_of_chain' r (List.chain'_of_mem_splitBy hr)

theorem map_codePoint_of_all_blank (r : List Cell) (h : ∀ c ∈ r, c = blankCell) :
    r.map Cell.codePoint = List.replicate r.length 0x20 := by
  induction r with
  | nil => rfl
  | cons a t ih =>
      have ha := h a (List.mem_cons_self a t)
      simp only [List.map_cons, List.length_cons, List.replicate_succ]
      rw [ha, ih (fun c hc => h c (List.mem_cons_of_mem a hc))]
      rfl

theorem runsFrom_chunkText_flatten (rs : List (List Cell)) :
    ∀ start : Nat,
      ((runsFrom start rs).map chunkText).flatten = rs.flatten.map Cell.codePoint := by
  induction rs with
  | nil => intro start; rfl
  | cons r rest ih =>
      intro start
      simp only [runsFrom, List.map_cons, List.flatten_cons, List.map_append, ih]
      congr 1
      by_cases hb : r.all (fun c => decide (c = blankCell))
      · rw [show chunkText
            { startColumn := start
            , textOrNull :=
                if r.all (fun c => decide (c = blankCell)) then none
                else some (r.map Cell.codePoint)
            , runLength := r.length
            , attrs := (r.headD blankCell).attrs } =
              (if r.all (fun c => decide (c = blankCell)) then
                List.replicate r.length 0x20 else r.map Cell.codePoint) from by
          by_cases hc : r.all (fun c => decide (c = blankCell)) <;> simp [chunkText, hc]]
        rw [if_pos hb]
        refine (map_codePoint_of_all_blank r ?_).symm
        intro c hc
        exact of_decide_eq_true (List.all_eq_true.mp hb c hc)
      · rw [show chunkText
            { startColumn := start
            , textOrNull :=
                if r.all (fun c => decide (c = blankCell)) then none
                else some (r.map Cell.codePoint)
            , runLength := r.length
            , attrs := (r.headD blankCell).attrs } =
              (if r.all (fun c => decide (c = blankCell)) then
                List.replicate r.length 0x20 else r.map Cell.codePoint) from by
          by_cases hc : r.all (fun c => decide (c = blankCell)) <;> simp [chunkText, hc]]
        rw [if_neg hb]

theorem row_chunks_reconstruct (row : List Cell) :
    ((Terminal_ForEachLikeAttributeRunDo row).map chunkText).flatten =
      row.map Cell.codePoint := by
  unfold Terminal_ForEachLikeAttributeRunDo
  rw [runsFrom_chunkText_flatten, likeRuns_flatten]

theorem set_append_length (a b : List Cell) (v : Cell) :
    (a ++ b).set a.length v = a ++ b.set 0 v := by
  induction a with
  | nil => rfl
  | cons x xs ih => simp [List.set, ih]

theorem padTo_set_at_length (cols : Nat) (flat : List Cell) (v : Cell)
    (h : flat.length < cols) :
    (padTo cols flat).set flat.length v = padTo cols (flat ++ [v]) := by
  unfold padTo
  have hrep : cols - flat.length = (cols - flat.length - 1) + 1 := by omega
  rw [hrep, List.replicate_succ, set_append_length]
  show flat ++ v :: List.replicate (cols - flat.length - 1) blankCell =
    (flat ++ [v]) ++ List.replicate (cols - (flat ++ [v]).length) blankCell
  rw [List.append_assoc, List.singleton_append]
  have hlen2 : cols - flat.length - 1 = cols - (flat ++ [v]).length := by
    rw [List.length_append]
    simp
    omega
  rw [hlen2]

theorem toGrid_nil (cols : Nat) (rows : Nat) :
    toGrid cols rows [] = List.replicate rows (List.replicate cols blankCell) := by
  induction rows with
  | zero => rfl
  | succ n ih =>
      show padTo cols (List.take cols ([] : List Cell)) ::
          toGrid cols n (List.drop cols ([] : List Cell)) =
        List.replicate (n + 1) (List.replicate cols blankCell)
      rw [List.take_nil, List.drop_nil, ih, List.replicate_succ]
      congr 1

theorem setCell_toGrid (cols : Nat) (v : Cell) :
    ∀ (rows r c : Nat) (flat : List Cell),
      c < cols → flat.length = r * cols + c → r < rows →
      setCell (toGrid cols rows flat) r c v = toGrid cols rows (flat ++ [v]) := by
  intro rows
  induction rows with
  | zero => intro r c flat _ _ hr; exact absurd hr (Nat.not_lt_zero r)
  | succ n ih =>
      intro r c flat hc hlen hr
      cases r with
      | zero =>
          rw [Nat.zero_mul, Nat.zero_add] at hlen
          have hflat_le : flat.length ≤ cols := by omega
          have htake : flat.take cols = flat := List.take_of_length_le hflat_le
          have hdrop : flat.drop cols = [] := List.drop_eq_nil_of_le hflat_le
          have htake2 : (flat ++ [v]).take cols = flat ++ [v] :=
            List.take_of_length_le (by simp; omega)
          have hdrop2 : (flat ++ [v]).drop cols = [] :=
            List.drop_eq_nil_of_le (by simp; omega)
          show (padTo cols (flat.take cols)).set c v :: toGrid cols n (flat.drop cols) =
            padTo cols ((flat ++ [v]).take cols) :: toGrid cols n ((flat ++ [v]).drop cols)
          rw [htake, hdrop, htake2, hdrop2, ← hlen,
            padTo_set_at_length cols flat v (by omega)]
      | succ r1 =>
          have hsm : (r1 + 1) * cols = r1 * cols + cols := Nat.succ_mul r1 cols
          have hge : cols ≤ flat.length := by rw [hlen, hsm]; omega
          have hcz : cols - flat.length = 0 := by omega
          have htake : (flat ++ [v]).take cols = flat.take cols := by
            rw [List.take_append_eq_append_take, hcz]
            simp
          have hdrop : (flat ++ [v]).drop cols = flat.drop cols ++ [v] := by
            rw [List.drop_append_eq_append_drop, hcz, List.drop_zero]
          show padTo cols (flat.take cols) :: setCell (toGrid cols n (flat.drop cols)) r1 c v =
            padTo cols ((flat ++ [v]).take cols) :: toGrid cols n ((flat ++ [v]).drop cols)
          rw [htake, hdrop]
          congr 1
          refine ih r1 c (flat.drop cols) hc ?_ (by omega)
          rw [List.length_drop, hlen, hsm]
          omega

theorem toGrid_flatten (cols : Nat) (hcols : 0 < cols) :
    ∀ (rows : Nat) (flat : List Cell), flat.length ≤ rows * cols →
      (toGrid cols rows flat).flatten =
        flat ++ List.replicate (rows * cols - flat.length) blankCell := by
  intro rows
  induction rows with
  | zero =>
      intro flat h
      rw [Nat.zero_mul] at h ⊢
      have : flat = [] := List.length_eq_zero.mp (by omega)
      subst this
      rfl
  | succ n ih =>
      intro flat h
      rw [Nat.succ_mul] at h
      show (padTo cols (flat.take cols) :: toGrid cols n (flat.drop cols)).flatten = _
      rw [List.flatten_cons]
      by_cases hl : cols ≤ flat.length
      · have htake : (flat.take cols).length = cols := by
          rw [List.length_take]
          omega
        have hpad : padTo cols (flat.take cols) = flat.take cols := by
          unfold padTo
          rw [htake]
          simp
        rw [hpad, ih (flat.drop cols) (by rw [List.length_drop]; omega)]
        rw [← List.append_assoc, List.take_append_drop, List.length_drop]
        have hcount : n * cols - (flat.length - cols) = (n + 1) * cols - flat.length := by
          rw [Nat.succ_mul]
          omega
        rw [hcount]
      · have htake : flat.take cols = flat := List.take_of_length_le (by omega)
        have hdrop : flat.drop cols = [] := List.drop_eq_nil_of_le (by omega)
        rw [htake, hdrop, ih [] (by simp)]
        unfold padTo
        rw [List.nil_append, List.length_nil, Nat.sub_zero, List.append_assoc,
          ← List.replicate_add]
        have hcnt : cols - flat.length + n * cols = (n + 1) * cols - flat.length := by
          rw [Nat.succ_mul]
          omega
        rw [hcnt]

theorem printChar_no_sentinel (rows cols : Nat) (grid : List (List Cell))
    (r c0 a ch : Nat) (h : c0 < cols) :
    printChar ⟨rows, cols, grid, r, c0, true, a⟩ ch =
      ⟨rows, cols, setCell grid r c0 ⟨ch, a⟩, r, c0 + 1, true, a⟩ := by
  unfold printChar
  dsimp only
  have hcond : ¬((true : Bool) = true ∧ c0 = cols) := by
    rintro ⟨-, rfl⟩
    exact absurd h (lt_irrefl _)
  rw [if_neg hcond]
  dsimp only
  by_cases hadv : c0 + 1 < cols
  · rw [if_pos hadv]
  · rw [if_neg hadv, if_pos rfl]
    have hcc : cols = c0 + 1 := by omega
    rw [hcc]

theorem printChar_sentinel_wrap (rows cols : Nat) (grid : List (List Cell))
    (r a ch : Nat) (hcols : 0 < cols) (hr : r + 1 < rows) :
    printChar ⟨rows, cols, grid, r, cols, true, a⟩ ch =
      ⟨rows, cols, setCell grid (r + 1) 0 ⟨ch, a⟩, r + 1, 1, true, a⟩ := by
  unfold printChar
  dsimp only
  have hcond : (true = true ∧ cols = cols) := ⟨rfl, rfl⟩
  rw [if_pos hcond, if_pos hr]
  dsimp only
  by_cases hadv : 0 + 1 < cols
  · rw [if_pos hadv]
  · rw [if_neg hadv, if_pos rfl]
    have hc1 : cols = 1 := by omega
    subst hc1
    rfl

theorem printChar_writtenState (rows cols : Nat) (T : List Nat) (ch : Nat)
    (hcols : 0 < cols) (hlen : T.length < rows * cols) :
    printChar (writtenState rows cols T) ch = writtenState rows cols (T ++ [ch]) := by
  have hcells : cellsOfText 0 (T ++ [ch]) = cellsOfText 0 T ++ [⟨ch, 0⟩] := by
    simp [cellsOfText]
  have hclen : (cellsOfText 0 T).length = T.length := by simp [cellsOfText]
  have hlen1 : (T ++ [ch]).length = T.length + 1 := by simp
  by_cases hk0 : T.length = 0
  · obtain rfl : T = [] := List.length_eq_zero.mp hk0
    have hrows : 0 < rows := by
      rcases Nat.eq_zero_or_pos rows with h | h
      · subst h; rw [Nat.zero_mul] at hlen; exact absurd hlen (lt_irrefl _)
      · exact h
    have hws : writtenState rows cols [] =
        ⟨rows, cols, toGrid cols rows [], 0, 0, true, 0⟩ := by
      unfold writtenState cursorAfter cellsOfText
      simp
    have hws2 : writtenState rows cols ([] ++ [ch]) =
        ⟨rows, cols, toGrid cols rows [⟨ch, 0⟩], 0, 1, true, 0⟩ := by
      unfold writtenState cursorAfter cellsOfText
      simp
    have hset := setCell_toGrid cols ⟨ch, 0⟩ rows 0 0 [] hcols (by simp) hrows
    rw [List.nil_append] at hset
    rw [hws, hws2, printChar_no_sentinel rows cols _ 0 0 0 ch hcols, hset]
  · have hk : 0 < T.length := Nat.pos_of_ne_zero hk0
    have hq := Nat.div_add_mod (T.length - 1) cols
    rw [Nat.mul_comm] at hq
    set q := (T.length - 1) / cols with hqdef
    set m := (T.length - 1) % cols with hmdef
    have hmlt : m < cols := Nat.mod_lt _ hcols
    have hws : writtenState rows cols T =
        ⟨rows, cols, toGrid cols rows (cellsOfText 0 T), q, m + 1, true, 0⟩ := by
      unfold writtenState cursorAfter
      rw [if_neg hk0]
    have hkeq : T.length = q * cols + m + 1 := by omega
    by_cases hsent : m + 1 = cols
    · have hTq : T.length = (q + 1) * cols := by rw [Nat.succ_mul]; omega
      have hq1 : q + 1 < rows := by
        have h2 : (q + 1) * cols < rows * cols := by rw [← hTq]; exact hlen
        exact Nat.lt_of_mul_lt_mul_right h2
      have hws2 : writtenState rows cols (T ++ [ch]) =
          ⟨rows, cols, toGrid cols rows (cellsOfText 0 (T ++ [ch])), q + 1, 1, true, 0⟩ := by
        unfold writtenState cursorAfter
        rw [hlen1, if_neg (by omega : ¬(T.length + 1 = 0))]
        have hk2 : T.length + 1 - 1 = (q + 1) * cols := by rw [Nat.succ_mul]; omega
        rw [hk2, Nat.mul_div_cancel _ hcols, Nat.mul_mod_left]
      have hset := setCell_toGrid cols ⟨ch, 0⟩ rows (q + 1) 0 (cellsOfText 0 T) hcols
        (by rw [hclen]; omega) hq1
      rw [hws, hws2, hsent, printChar_sentinel_wrap rows cols _ q 0 ch hcols hq1,
        hset, hcells]
    · have hmc : m + 1 < cols := by omega
      have hqrows : q < rows := by
        rw [hqdef]
        rw [Nat.div_lt_iff_lt_mul hcols]
        omega
      have hws2 : writtenState rows cols (T ++ [ch]) =
          ⟨rows, cols, toGrid cols rows (cellsOfText 0 (T ++ [ch])), q, m + 2, true, 0⟩ := by
        unfold writtenState cursorAfter
        rw [hlen1, if_neg (by omega : ¬(T.length + 1 = 0))]
        have h3 : T.length + 1 - 1 = (m + 1) + q * cols := by omega
        rw [h3, Nat.add_mul_div_right _ _ hcols, Nat.add_mul_mod_self_right,
          Nat.div_eq_of_lt hmc, Nat.mod_eq_of_lt hmc, Nat.zero_add]
      have hset := setCell_toGrid cols ⟨ch, 0⟩ rows q (m + 1) (cellsOfText 0 T) hmc
        (by rw [hclen]; omega) hqrows
      rw [hws, hws2, printChar_no_sentinel rows cols _ q (m + 1) 0 ch hmc, hset, hcells]

theorem writeText_writtenState (rows cols : Nat) (hcols : 0 < cols) :
    ∀ (rest T : List Nat), T.length + rest.length ≤ rows * cols →
      writeText (writtenState rows cols T) rest = writtenState rows cols (T ++ rest) := by
  intro rest
  induction rest with
  | nil => intro T _; simp [writeText]
  | cons x xs ih =>
      intro T h
      show writeText (printChar (writtenState rows cols T) x) xs =
        writtenState rows cols (T ++ x :: xs)
      rw [printChar_writtenState rows cols T x hcols (by simp at h; omega)]
      rw [ih (T ++ [x]) (by simp at h ⊢; omega)]
      rw [List.append_assoc, List.singleton_append]

theorem writeText_fresh (rows cols : Nat) (hcols : 0 < cols) (T : List Nat)
    (h : T.length ≤ rows * cols) :
    writeText (freshPrintScreen rows cols) T = writtenState rows cols T := by
  have hfresh : freshPrintScreen rows cols = writtenState rows cols [] := by
    unfold freshPrintScreen writtenState cursorAfter cellsOfText
    simp [toGrid_nil]
  rw [hfresh, writeText_writtenState rows cols hcols T [] (by simpa using h),
    List.nil_append]

theorem dropTrailingBlanks_append_blanks (T : List Nat) (k : Nat) :
    dropTrailingBlanks (T ++ List.replicate k 0x20) = dropTrailingBlanks T := by
  unfold dropTrailingBlanks
  rw [List.reverse_append, List.reverse_replicate]
  congr 1
  induction k with
  | zero => rfl
  | succ n ih =>
      rw [List.replicate_succ, List.cons_append, List.dropWhile_cons]
      simpa using ih

/-- C4: for every printable text written into a freshly created screen that
fits on it, concatenating in order the chunks delivered by
`Terminal_ForEachLikeAttributeRunDo` over the rows — a null chunk buffer
standing for a blank run of the stated length — recovers exactly the
written text modulo line wrapping (the concatenation runs across the
wrapped rows) and trailing blanks; and every delivered chunk is uniform in
its attribute word (all cells of a like-attribute run carry the run's
single attribute word). -/
theorem for_each_like_attribute_run_reconstructs_text (rows cols : Nat) (T : List Nat)
    (hcols : 0 < cols) (hfit : T.length ≤ rows * cols)
    (hprintable : ∀ c ∈ T, 0x20 ≤ c ∧ c ≤ 0x7E) :
    dropTrailingBlanks
        (((writeText (freshPrintScreen rows cols) T).grid.map
            (fun row => ((Terminal_ForEachLikeAttributeRunDo row).map chunkText).flatten)).flatten)
      = dropTrailingBlanks T ∧
    (∀ row : List Cell, ∀ r ∈ likeRuns row, ∀ c ∈ r, c.attrs = (r.headD blankCell).attrs) := by
  constructor
  · have hmap : (writeText (freshPrintScreen rows cols) T).grid.map
        (fun row => ((Terminal_ForEachLikeAttributeRunDo row).map chunkText).flatten) =
        (writeText (freshPrintScreen rows cols) T).grid.map
          (fun row => row.map Cell.codePoint) :=
      List.map_congr_left (fun row _ => row_chunks_reconstruct row)
    rw [hmap, ← List.map_flatten, writeText_fresh rows cols hcols T hfit]
    rw [show (writtenState rows cols T).grid = toGrid cols rows (cellsOfText 0 T) from rfl]
    rw [toGrid_flatten cols hcols rows (cellsOfText 0 T)
      (by unfold cellsOfText; rw [List.length_map]; exact hfit)]
    rw [List.map_append, List.map_replicate]
    have hct : (cellsOfText 0 T).map Cell.codePoint = T := by
      unfold cellsOfText
      rw [List.map_map]
      exact List.map_id T
    rw [hct, show blankCell.codePoint = 0x20 from rfl]
    exact dropTrailingBlanks_append_blanks T _
  · intro row
    exact likeRuns_uniform_attrs row

/-! ### Lemmas about scrollback and scroll events (claims C3, C10) -/

theorem scrollUpFull_scrollback_eq (s : SbScreen) (top : Nat) (rest : List Nat)
    (hms : s.mainScreen = top :: rest) (hsave : s.saveLinesOnClear = true) :
    (scrollUpFull s).scrollback = pushScrollback s top := by
  unfold scrollUpFull
  rw [hms]
  dsimp only
  rw [hsave]
  rfl

set_option maxRecDepth 20000 in
/-- C3: with save-lines-on-clear enabled and scrollback type Fixed(100),
every full-screen scroll-up pushes the old top row onto the scrollback at
position 0 (newest), keeping only the newest `N` lines so the oldest are
dropped in FIFO order; and concretely, after 101 such scrolls of a fresh
24-row screen the first line pushed (line id 0) has been evicted while
`Terminal_ReturnInvisibleRowCount` is exactly 100 (the newest saved line
being the 101st pushed, id 100). -/
theorem scrollback_fixed_fifo_eviction :
    (∀ (s : SbScreen) (top : Nat) (rest : List Nat),
      s.mainScreen = top :: rest → s.saveLinesOnClear = true →
      s.scrollbackType = Terminal_ScrollbackType.kTerminal_ScrollbackTypeFixed →
      0 < s.scrollbackRows →
      (scrollUpFull s).scrollback.head? = some top ∧
      (scrollUpFull s).scrollback = (top :: s.scrollback).take s.scrollbackRows) ∧
    (Terminal_ReturnInvisibleRowCount (iterateScrollUp fixedScrollbackDemoScreen 101) = 100 ∧
      (iterateScrollUp fixedScrollbackDemoScreen 101).scrollback.head? = some 100 ∧
      ¬ 0 ∈ (iterateScrollUp fixedScrollbackDemoScreen 101).scrollback) := by
  constructor
  · intro s top rest hms hsave htype hpos
    have hpush : pushScrollback s top = (top :: s.scrollback).take s.scrollbackRows := by
      unfold pushScrollback
      rw [htype]
      rfl
    have hsb := scrollUpFull_scrollback_eq s top rest hms hsave
    refine ⟨?_, by rw [hsb, hpush]⟩
    obtain ⟨n, hn⟩ : ∃ n, s.scrollbackRows = n + 1 := ⟨s.scrollbackRows - 1, by omega⟩
    rw [hsb, hpush, hn, List.take_succ_cons]
    rfl
  · decide

/-- Witness for C3: the general push-at-position-0 clause applied to a
concrete two-row screen with an empty Fixed(100) scrollback. -/
theorem scrollback_fixed_fifo_eviction_witness :
    ((⟨[5, 6], [], 7, true,
        Terminal_ScrollbackType.kTerminal_ScrollbackTypeFixed, 100⟩ : SbScreen).mainScreen =
          5 :: [6] ∧
      (⟨[5, 6], [], 7, true,
        Terminal_ScrollbackType.kTerminal_ScrollbackTypeFixed, 100⟩ : SbScreen).saveLinesOnClear =
          true ∧
      (0 : Nat) < 100) ∧
    ((scrollUpFull ⟨[5, 6], [], 7, true,
        Terminal_ScrollbackType.kTerminal_ScrollbackTypeFixed, 100⟩).scrollback.head? =
          some 5 ∧
      (scrollUpFull ⟨[5, 6], [], 7, true,
        Terminal_ScrollbackType.kTerminal_ScrollbackTypeFixed, 100⟩).scrollback =
        (5 :: ([] : List Nat)).take 100) :=
  ⟨⟨rfl, rfl, by decide⟩,
    scrollback_fixed_fifo_eviction.1 _ 5 [6] rfl rfl rfl (by decide)⟩

theorem iterateScrollUp_scrollback_unlimited :
    ∀ (n : Nat) (s : SbScreen),
      s.saveLinesOnClear = true →
      s.scrollbackType = Terminal_ScrollbackType.kTerminal_ScrollbackTypeUnlimited →
      n ≤ s.mainScreen.length →
      (iterateScrollUp s n).scrollback = (s.mainScreen.take n).reverse ++ s.scrollback := by
  intro n
  induction n with
  | zero => intro s _ _ _; simp [iterateScrollUp]
  | succ k ih =>
      intro s hsave htype hlen
      obtain ⟨top, rest, hms⟩ : ∃ top rest, s.mainScreen = top :: rest := by
        cases hcase : s.mainScreen with
        | nil => rw [hcase] at hlen; simp at hlen
        | cons a l => exact ⟨a, l, rfl⟩
      have hpush : pushScrollback s top = top :: s.scrollback := by
        unfold pushScrollback
        rw [htype]
        rfl
      have hup : scrollUpFull s =
          { s with
            mainScreen := rest ++ [s.nextLineId]
          , scrollback := top :: s.scrollback
          , nextLineId := s.nextLineId + 1 } := by
        unfold scrollUpFull
        rw [hms]
        dsimp only
        rw [hsave]
        simp [← hpush]
      have hlen2 : k ≤ ({ s with
          mainScreen := rest ++ [s.nextLineId]
        , scrollback := top :: s.scrollback
        , nextLineId := s.nextLineId + 1 } : SbScreen).mainScreen.length := by
        show k ≤ (rest ++ [s.nextLineId]).length
        rw [hms] at hlen
        simp at hlen ⊢
        omega
      have hih := ih { s with
          mainScreen := rest ++ [s.nextLineId]
        , scrollback := top :: s.scrollback
        , nextLineId := s.nextLineId + 1 } hsave htype hlen2
      show (iterateScrollUp (scrollUpFull s) k).scrollback = _
      rw [hup, hih]
      have htk : (rest ++ [s.nextLineId]).take k = rest.take k := by
        rw [List.take_append_eq_append_take]
        have hz : k - rest.length = 0 := by rw [hms] at hlen; simp at hlen; omega
        rw [hz]
        simp
      show ((rest ++ [s.nextLineId]).take k).reverse ++ (top :: s.scrollback) =
        (s.mainScreen.take (k + 1)).reverse ++ s.scrollback
      rw [htk, hms, List.take_succ_cons, List.reverse_cons, List.append_assoc]
      rfl

/-- C10: every `ScrollActivity` event payload obeys the rowDelta sign
convention of the header: rowDelta is negative exactly when main-screen
content scrolled upward by that many rows (and with save-lines-on-clear and
an unbounded scrollback those rows do move into the scrollback), positive
exactly when content scrolled downward clipping the bottom of the main
screen, and zero exactly for the remaining scrollback-only modification,
clearing the scrollback. -/
theorem scroll_description_sign_convention :
    (∀ (screenId : Nat) (s : SbScreen) (op : ScrollOp),
      ∀ d ∈ (runScrollOp screenId s op).2,
        (d.rowDelta < 0 ↔ ∃ n, 0 < n ∧ op = ScrollOp.scrollUp n ∧ d.rowDelta = -(n : Int)) ∧
        (0 < d.rowDelta ↔ ∃ n, 0 < n ∧ op = ScrollOp.scrollDown n ∧ d.rowDelta = (n : Int)) ∧
        (d.rowDelta = 0 ↔ op = ScrollOp.clearScrollback)) ∧
    (∀ (screenId : Nat) (s : SbScreen),
      (runScrollOp screenId s ScrollOp.clearScrollback).1.scrollback = []) ∧
    (∀ (s : SbScreen) (n : Nat),
      s.saveLinesOnClear = true →
      s.scrollbackType = Terminal_ScrollbackType.kTerminal_ScrollbackTypeUnlimited →
      n ≤ s.mainScreen.length →
      (iterateScrollUp s n).scrollback = (s.mainScreen.take n).reverse ++ s.scrollback) := by
  refine ⟨?_, fun _ _ => rfl, fun s n hs ht hl => iterateScrollUp_scrollback_unlimited n s hs ht hl⟩
  intro screenId s op d hd
  cases op with
  | scrollUp n =>
      by_cases hn : n = 0
      · rw [show (runScrollOp screenId s (ScrollOp.scrollUp n)).2 =
            (if n = 0 then [] else [⟨screenId, -(n : Int)⟩]) from rfl, if_pos hn] at hd
        exact absurd hd (List.not_mem_nil d)
      · rw [show (runScrollOp screenId s (ScrollOp.scrollUp n)).2 =
            (if n = 0 then [] else [⟨screenId, -(n : Int)⟩]) from rfl, if_neg hn,
          List.mem_singleton] at hd
        subst hd
        refine ⟨⟨fun _ => ⟨n, by omega, rfl, rfl⟩, fun _ => by show -(n : Int) < 0; omega⟩,
          ⟨fun hlt => ?_, fun hex => ?_⟩, ⟨fun heq => ?_, fun heq => ?_⟩⟩
        · exact absurd hlt (by show ¬ (0 < -(n : Int)); omega)
        · obtain ⟨n0, -, heq, -⟩ := hex
          exact ScrollOp.noConfusion heq
        · exact absurd heq (by show ¬ (-(n : Int) = 0); omega)
        · exact ScrollOp.noConfusion heq
  | scrollDown n =>
      by_cases hn : n = 0
      · rw [show (runScrollOp screenId s (ScrollOp.scrollDown n)).2 =
            (if n = 0 then [] else [⟨screenId, (n : Int)⟩]) from rfl, if_pos hn] at hd
        exact absurd hd (List.not_mem_nil d)
      · rw [show (runScrollOp screenId s (ScrollOp.scrollDown n)).2 =
            (if n = 0 then [] else [⟨screenId, (n : Int)⟩]) from rfl, if_neg hn,
          List.mem_singleton] at hd
        subst hd
        refine ⟨⟨fun hlt => ?_, fun hex => ?_⟩,
          ⟨fun _ => ⟨n, by omega, rfl, rfl⟩, fun _ => by show (0 : Int) < (n : Int); omega⟩,
          ⟨fun heq => ?_, fun heq => ?_⟩⟩
        · exact absurd hlt (by show ¬ ((n : Int) < 0); omega)
        · obtain ⟨n0, -, heq, -⟩ := hex
          exact ScrollOp.noConfusion heq
        · exact absurd heq (by show ¬ ((n : Int) = 0); omega)
        · exact ScrollOp.noConfusion heq
  | clearScrollback =>
      rw [show (runScrollOp screenId s ScrollOp.clearScrollback).2 =
          [⟨screenId, 0⟩] from rfl, List.mem_singleton] at hd
      subst hd
      refine ⟨⟨fun hlt => ?_, fun hex => ?_⟩, ⟨fun hlt => ?_, fun hex => ?_⟩,
        ⟨fun _ => rfl, fun _ => rfl⟩⟩
      · exact absurd hlt (by show ¬ ((0 : Int) < 0); omega)
      · obtain ⟨n0, -, heq, -⟩ := hex
        exact ScrollOp.noConfusion heq
      · exact absurd hlt (by show ¬ ((0 : Int) < 0); omega)
      · obtain ⟨n0, -, heq, -⟩ := hex
        exact ScrollOp.noConfusion heq

/-- Witness for C10: the sign convention at the concrete upward scroll of
two rows, and the unlimited-scrollback content movement on a concrete
two-row screen. -/
theorem scroll_description_sign_convention_witness :
    ((⟨0, -2⟩ : Terminal_ScrollDescription) ∈
        (runScrollOp 0 fixedScrollbackDemoScreen (ScrollOp.scrollUp 2)).2 ∧
      (((⟨0, -2⟩ : Terminal_ScrollDescription).rowDelta < 0 ↔
          ∃ n, 0 < n ∧ ScrollOp.scrollUp 2 = ScrollOp.scrollUp n ∧
            (⟨0, -2⟩ : Terminal_ScrollDescription).rowDelta = -(n : Int)) ∧
        (0 < (⟨0, -2⟩ : Terminal_ScrollDescription).rowDelta ↔
          ∃ n, 0 < n ∧ ScrollOp.scrollUp 2 = ScrollOp.scrollDown n ∧
            (⟨0, -2⟩ : Terminal_ScrollDescription).rowDelta = (n : Int)) ∧
        ((⟨0, -2⟩ : Terminal_ScrollDescription).rowDelta = 0 ↔
          ScrollOp.scrollUp 2 = ScrollOp.clearScrollback))) ∧
    ((⟨[8, 9], [], 10, true,
        Terminal_ScrollbackType.kTerminal_ScrollbackTypeUnlimited, 0⟩ : SbScreen).saveLinesOnClear =
          true ∧
      (1 : Nat) ≤ 2 ∧
      (iterateScrollUp ⟨[8, 9], [], 10, true,
          Terminal_ScrollbackType.kTerminal_ScrollbackTypeUnlimited, 0⟩ 1).scrollback =
        (([8, 9] : List Nat).take 1).reverse ++ ([] : List Nat)) :=
  ⟨⟨by decide,
      scroll_description_sign_convention.1 0 fixedScrollbackDemoScreen
        (ScrollOp.scrollUp 2) ⟨0, -2⟩ (by decide)⟩,
    rfl, by decide,
    scroll_description_sign_convention.2.2
      ⟨[8, 9], [], 10, true, Terminal_ScrollbackType.kTerminal_ScrollbackTypeUnlimited, 0⟩
      1 rfl rfl (by decide)⟩

/-! ### Lemmas about line iterators (claim C6) -/

theorem regionOf_combined_get (s : SbScreen) (j : Nat)
    (hj : j < (combinedLines s).length) (hnodup : (combinedLines s).Nodup) :
    regionOf s ((combinedLines s).getD j 0) =
      some (if j < s.scrollback.length then LineRegion.scrollback
        else LineRegion.mainScreen) := by
  rw [List.getD_eq_getElem _ _ hj]
  have hlen : (combinedLines s).length = s.scrollback.length + s.mainScreen.length := by
    unfold combinedLines
    rw [List.length_append, List.length_reverse]
  by_cases hjs : j < s.scrollback.length
  · have hjr : j < s.scrollback.reverse.length := by rw [List.length_reverse]; omega
    have hid : (combinedLines s)[j] = s.scrollback.reverse[j] :=
      List.getElem_append_left hjr
    have hmem : (combinedLines s)[j] ∈ s.scrollback := by
      rw [hid, ← List.mem_reverse]
      exact List.getElem_mem hjr
    have hnot : (combinedLines s)[j] ∉ s.mainScreen := by
      rcases List.nodup_append.mp hnodup with ⟨-, -, hdisj⟩
      intro hin
      exact hdisj (by rw [List.mem_reverse]; exact hmem) hin
    unfold regionOf
    rw [if_neg hnot, if_pos hmem, if_pos hjs]
  · have hjr : s.scrollback.reverse.length ≤ j := by rw [List.length_reverse]; omega
    have hlt : j - s.scrollback.reverse.length < s.mainScreen.length := by
      rw [List.length_reverse]
      omega
    have hid : (combinedLines s)[j] =
        s.mainScreen.get ⟨j - s.scrollback.reverse.length, hlt⟩ :=
      List.getElem_append_right hjr
    have hmem : (combinedLines s)[j] ∈ s.mainScreen := by
      rw [hid]
      exact List.get_mem _ _ hlt
    unfold regionOf
    rw [if_pos hmem, if_neg hjs]

/-- C6: a line iterator (holding its line by id) advances by ±k across the
boundary between scrollback and main screen transparently — when the
target position is inside the combined scrollback-plus-main-screen list
the advance succeeds and lands on the line at that position, whose region
is the scrollback exactly when the position is before the boundary;
advancing past either end returns `kTerminal_ResultIteratorCannotAdvance`
with the iterator left in place; and a scroll-up does not invalidate
iterators: every line id resolvable before the scroll is still resolvable
after it, the combined list merely gaining the freshly allocated bottom
line, with the old top row's iterator transparently becoming a scrollback
iterator. -/
theorem line_iterator_advance_spec :
    (∀ (s : SbScreen) (id : Nat) (delta : Int) (i : Nat),
      combinedIndexOf s id = some i →
      ((0 ≤ (i : Int) + delta ∧ (i : Int) + delta < ((combinedLines s).length : Int)) →
        Terminal_LineIteratorAdvance s id delta =
          (Terminal_Result.kTerminal_ResultOK,
            (combinedLines s).getD ((i : Int) + delta).toNat 0) ∧
        ((combinedLines s).Nodup →
          regionOf s ((combinedLines s).getD ((i : Int) + delta).toNat 0) =
            some (if ((i : Int) + delta).toNat < s.scrollback.length then
              LineRegion.scrollback else LineRegion.mainScreen))) ∧
      (¬(0 ≤ (i : Int) + delta ∧ (i : Int) + delta < ((combinedLines s).length : Int)) →
        Terminal_LineIteratorAdvance s id delta =
          (Terminal_Result.kTerminal_ResultIteratorCannotAdvance, id))) ∧
    (∀ (s : SbScreen) (top : Nat) (rest : List Nat),
      s.mainScreen = top :: rest →
      s.saveLinesOnClear = true →
      s.scrollbackType = Terminal_ScrollbackType.kTerminal_ScrollbackTypeUnlimited →
      combinedLines (scrollUpFull s) = combinedLines s ++ [s.nextLineId] ∧
      (∀ id ∈ combinedLines s, id ∈ combinedLines (scrollUpFull s)) ∧
      regionOf s top = some LineRegion.mainScreen ∧
      (top ∉ rest → top ≠ s.nextLineId →
        regionOf (scrollUpFull s) top = some LineRegion.scrollback)) := by
  constructor
  · intro s id delta i hidx
    constructor
    · intro hin
      constructor
      · unfold Terminal_LineIteratorAdvance
        rw [hidx]
        dsimp only
        rw [if_pos hin]
      · intro hnodup
        have hj : ((i : Int) + delta).toNat < (combinedLines s).length := by omega
        exact regionOf_combined_get s _ hj hnodup
    · intro hout
      unfold Terminal_LineIteratorAdvance
      rw [hidx]
      dsimp only
      rw [if_neg hout]
  · intro s top rest hms hsave htype
    have hpush : pushScrollback s top = top :: s.scrollback := by
      unfold pushScrollback
      rw [htype]
      rfl
    have hup : scrollUpFull s =
        { s with
          mainScreen := rest ++ [s.nextLineId]
        , scrollback := top :: s.scrollback
        , nextLineId := s.nextLineId + 1 } := by
      unfold scrollUpFull
      rw [hms]
      dsimp only
      rw [hsave]
      simp [← hpush]
    have hcomb : combinedLines (scrollUpFull s) = combinedLines s ++ [s.nextLineId] := by
      rw [hup]
      unfold combinedLines
      dsimp only
      rw [List.reverse_cons, hms, List.append_assoc]
      simp
    refine ⟨hcomb, ?_, ?_, ?_⟩
    · intro id hid
      rw [hcomb, List.mem_append]
      exact Or.inl hid
    · unfold regionOf
      rw [if_pos (by rw [hms]; exact List.mem_cons_self top rest)]
    · intro htr htn
      rw [hup]
      unfold regionOf
      dsimp only
      rw [if_neg ?notmain, if_pos (List.mem_cons_self top s.scrollback)]
      case notmain =>
        rw [List.mem_append, List.mem_singleton]
        rintro (h | h)
        · exact htr h
        · exact htn h

/-- Witness for C6: advancing a concrete iterator from the main screen
backwards across the scrollback boundary, past-the-end failure, and
iterator survival across a concrete scroll-up. -/
theorem line_iterator_advance_spec_witness :
    (combinedIndexOf ⟨[3, 4], [2, 1], 5, true,
        Terminal_ScrollbackType.kTerminal_ScrollbackTypeUnlimited, 0⟩ 3 = some 2 ∧
      ((0 : Int) ≤ (2 : Nat) + (-1 : Int) ∧
        ((2 : Nat) : Int) + (-1 : Int) <
          ((combinedLines ⟨[3, 4], [2, 1], 5, true,
            Terminal_ScrollbackType.kTerminal_ScrollbackTypeUnlimited, 0⟩).length : Int)) ∧
      Terminal_LineIteratorAdvance ⟨[3, 4], [2, 1], 5, true,
          Terminal_ScrollbackType.kTerminal_ScrollbackTypeUnlimited, 0⟩ 3 (-1) =
        (Terminal_Result.kTerminal_ResultOK,
          (combinedLines ⟨[3, 4], [2, 1], 5, true,
            Terminal_ScrollbackType.kTerminal_ScrollbackTypeUnlimited, 0⟩).getD
              (((2 : Nat) : Int) + (-1 : Int)).toNat 0)) ∧
    (Terminal_LineIteratorAdvance ⟨[3, 4], [2, 1], 5, true,
        Terminal_ScrollbackType.kTerminal_ScrollbackTypeUnlimited, 0⟩ 4 1 =
      (Terminal_Result.kTerminal_ResultIteratorCannotAdvance, 4)) ∧
    (regionOf ⟨[3, 4], [2, 1], 5, true,
        Terminal_ScrollbackType.kTerminal_ScrollbackTypeUnlimited, 0⟩ 3 =
          some LineRegion.mainScreen ∧
      regionOf (scrollUpFull ⟨[3, 4], [2, 1], 5, true,
        Terminal_ScrollbackType.kTerminal_ScrollbackTypeUnlimited, 0⟩) 3 =
          some LineRegion.scrollback) :=
  ⟨⟨by decide, by decide,
      ((line_iterator_advance_spec.1 ⟨[3, 4], [2, 1], 5, true,
          Terminal_ScrollbackType.kTerminal_ScrollbackTypeUnlimited, 0⟩ 3 (-1) 2
          (by decide)).1 (by decide)).1⟩,
    (line_iterator_advance_spec.1 ⟨[3, 4], [2, 1], 5, true,
        Terminal_ScrollbackType.kTerminal_ScrollbackTypeUnlimited, 0⟩ 4 1 3
        (by decide)).2 (by decide),
    (line_iterator_advance_spec.2 ⟨[3, 4], [2, 1], 5, true,
        Terminal_ScrollbackType.kTerminal_ScrollbackTypeUnlimited, 0⟩ 3 [4]
        rfl rfl rfl).2.2.1,
    (line_iterator_advance_spec.2 ⟨[3, 4], [2, 1], 5, true,
        Terminal_ScrollbackType.kTerminal_ScrollbackTypeUnlimited, 0⟩ 3 [4]
        rfl rfl rfl).2.2.2 (by decide) (by decide)⟩

/-! ### Lemmas about error paths of public operations (claim C7) -/

/-- C7: every modelled public operation that reports
`kTerminal_ResultInvalidID` (unknown screen handle),
`kTerminal_ResultInvalidIterator` (unknown line iterator), or
`kTerminal_ResultParameterError` (a bad argument such as a null pointer)
leaves the screen registry — and with it every cell, cursor, mode,
scrollback, palette and listener — completely unchanged. -/
theorem error_results_leave_state_unchanged :
    ∀ (reg : ScreenRegistry) (op : TerminalOp),
      ((runOp reg op).1 = Terminal_Result.kTerminal_ResultInvalidID ∨
       (runOp reg op).1 = Terminal_Result.kTerminal_ResultInvalidIterator ∨
       (runOp reg op).1 = Terminal_Result.kTerminal_ResultParameterError) →
      (runOp reg op).2 = reg := by
  intro reg op h
  cases op with
  | emulatorProcessData id buf =>
      unfold runOp at h ⊢
      dsimp only at h ⊢
      cases hl : lookupScreen reg id with
      | none => rfl
      | some sc =>
          cases buf with
          | none => rfl
          | some bytes =>
              rw [hl] at h
              dsimp only at h
              rcases h with h | h | h <;> exact Terminal_Result.noConfusion h
  | lineIteratorAdvance id it delta =>
      unfold runOp at h ⊢
      dsimp only at h ⊢
      cases hl : lookupScreen reg id with
      | none => rfl
      | some sc =>
          cases it with
          | none => rfl
          | some itId => rfl
  | setVisibleScreenDimensions id w hh =>
      unfold runOp at h ⊢
      dsimp only at h ⊢
      cases hl : lookupScreen reg id with
      | none => rfl
      | some sc =>
          by_cases hz : w = 0 ∨ hh = 0
          · dsimp only
            rw [if_pos hz]
          · rw [hl] at h
            dsimp only at h
            rw [if_neg hz] at h
            rcases h with h | h | h <;> exact Terminal_Result.noConfusion h
  | deleteAllSavedLines id =>
      unfold runOp at h ⊢
      dsimp only at h ⊢
      cases hl : lookupScreen reg id with
      | none => rfl
      | some sc =>
          rw [hl] at h
          dsimp only at h
          rcases h with h | h | h <;> exact Terminal_Result.noConfusion h

/-- Witness for C7: feeding data to an unknown screen handle on an empty
registry reports `kTerminal_ResultInvalidID` and changes nothing. -/
theorem error_results_leave_state_unchanged_witness :
    ((runOp [] (TerminalOp.emulatorProcessData 0 (some [0x41]))).1 =
        Terminal_Result.kTerminal_ResultInvalidID ∨
     (runOp [] (TerminalOp.emulatorProcessData 0 (some [0x41]))).1 =
        Terminal_Result.kTerminal_ResultInvalidIterator ∨
     (runOp [] (TerminalOp.emulatorProcessData 0 (some [0x41]))).1 =
        Terminal_Result.kTerminal_ResultParameterError) ∧
    (runOp [] (TerminalOp.emulatorProcessData 0 (some [0x41]))).2 = [] :=
  ⟨Or.inl (by decide),
    error_results_leave_state_unchanged [] _ (Or.inl (by decide))⟩

/-- Witness for C4: reconstruction of the concrete text `ABCD` written onto
a 2-row, 3-column screen (it wraps onto the second row). -/
theorem for_each_like_attribute_run_reconstructs_text_witness :
    ((0 : Nat) < 3 ∧ ([0x41, 0x42, 0x43, 0x44] : List Nat).length ≤ 2 * 3 ∧
      (∀ c ∈ ([0x41, 0x42, 0x43, 0x44] : List Nat), 0x20 ≤ c ∧ c ≤ 0x7E)) ∧
    (dropTrailingBlanks
        (((writeText (freshPrintScreen 2 3) [0x41, 0x42, 0x43, 0x44]).grid.map
            (fun row => ((Terminal_ForEachLikeAttributeRunDo row).map chunkText).flatten)).flatten)
      = dropTrailingBlanks [0x41, 0x42, 0x43, 0x44] ∧
    (∀ row : List Cell, ∀ r ∈ likeRuns row, ∀ c ∈ r, c.attrs = (r.headD blankCell).attrs)) :=
  ⟨⟨by decide, by decide, by decide⟩,
    for_each_like_attribute_run_reconstructs_text 2 3 [0x41, 0x42, 0x43, 0x44]
      (by decide) (by decide) (by decide)⟩

end MacTerm
